import Mathlib

/-!
Verification of the RUBIQ_SOLVER scanning/classification core.

This file shallowly embeds the color-classification, validation, voting,
cross-face-correction, face-detection and scanner-loop logic of the
repository (src/src/lib/colorClassifier.ts, src/src/lib/faceDetector.ts and
the scanner loop hook) and proves or refutes the specification's claims
about them.

Modelling conventions:
  * JavaScript numbers are modelled as exact rationals (ℚ).  All the code's
    comparisons, divisions, floors and roundings are rational, except for
    the sRGB→Lab conversion (`rgbToLab`, which uses the transcendental
    x^2.4 and cbrt) and square roots.
  * `rgbToLab` is therefore treated as an opaque conversion: functions that
    call it are parameterised over a conversion `labFn`, and the Lab value
    of a sample is carried as data.  None of the claims below depends on
    the numeric content of that conversion.
  * Square roots appear only inside monotone comparisons
    (`sqrt a < sqrt b ↔ a < b` for nonnegative arguments), so every
    distance is embedded by its square and every threshold by its square;
    each embedded comparison notes the original.
  * JavaScript `Array.prototype.sort` is stable; it is embedded with
    `List.insertionSort` on a total `≤` key.  Every property proved below
    is independent of the order of key-ties.
-/

namespace RubiqSolver

/-- The six canonical cube colors, `CubeColor` of src/src/types/cube.ts. -/
inductive Color
  | R | O | Y | G | B | W
deriving DecidableEq, Repr, Inhabited

/-- `['R','O','Y','G','B','W']`: the key order of a
`Record<CubeColor, number>` literal written in that order, which is the
iteration order of `Object.entries` on it. -/
def allColors : List Color := [.R, .O, .Y, .G, .B, .W]

/-- A CIELAB triple (L, a, b). -/
abbrev Lab := ℚ × ℚ × ℚ

/-- An RGB triple, each channel 0..255. -/
abbrev RGB := ℚ × ℚ × ℚ

/-- `StickerColor` of src/src/types/cube.ts: an assigned color plus the
rgb and hsv measurements of the sample. -/
structure Sticker where
  color : Color
  rgb : RGB
  hsv : ℚ × ℚ × ℚ
deriving DecidableEq, Repr, Inhabited

/-- Number of stickers of `s` whose assigned color is `c`
(the `colorCounts` tally of `validateFaceColors`). -/
def countColor (s : List Sticker) (c : Color) : ℕ :=
  s.countP (fun x => decide (x.color = c))

/-- The colors that occur at least once in `s` — the keys of the
`colorCounts` object built by `validateFaceColors`. -/
def presentColors (s : List Sticker) : List Color :=
  allColors.filter (fun c => decide (0 < countColor s c))

/-- `stickers[4].color`, the face's center color. -/
def centerColor (s : List Sticker) : Color :=
  (s.getD 4 default).color

/-- `validateFaceColors` of src/src/lib/colorClassifier.ts (lines 317-344).
Returns `(valid, reason)`.  The reason strings are the code's literals,
except that the interpolated color/count of the `Too many` message is
omitted (the claims only inspect validity). -/
def validateFaceColors (s : List Sticker) : Bool × Option String :=
  if s.length ≠ 9 then
    (false, some "Not 9 stickers")
  else if (presentColors s).length = 1 ∧ centerColor s ≠ Color.W then
    (false, some "All same color (not white)")
  else if allColors.any (fun c => decide (c ≠ centerColor s) && decide (5 < countColor s c)) then
    (false, some "Too many")
  else if centerColor s ≠ Color.W ∧ 4 < countColor s Color.W then
    (false, some "Too much white on colored face")
  else
    (true, none)

/-- The invalidity condition exactly as claim C3 states it. -/
def claimInvalidC3 (s : List Sticker) : Prop :=
  s.length ≠ 9
    ∨ ((∀ x ∈ s, x.color = centerColor s) ∧ centerColor s ≠ Color.W)
    ∨ (∃ c, c ≠ centerColor s ∧ 5 < countColor s c)
    ∨ (4 < countColor s Color.W ∧ centerColor s ≠ Color.W)

/-- A gray sticker of color `c` (the rgb/hsv content is irrelevant to
validation). -/
def mkSticker (c : Color) : Sticker :=
  { color := c, rgb := (128, 128, 128), hsv := (0, 0, 128) }

/-- 8 Red + 1 White, center Red. -/
def ex8R1W : List Sticker :=
  [mkSticker .W, mkSticker .R, mkSticker .R, mkSticker .R, mkSticker .R,
   mkSticker .R, mkSticker .R, mkSticker .R, mkSticker .R]

/-- 9 White (center White). -/
def ex9W : List Sticker := List.replicate 9 (mkSticker .W)

/-- 9 Red (center Red). -/
def ex9R : List Sticker := List.replicate 9 (mkSticker .R)

lemma mem_allColors (c : Color) : c ∈ allColors := by
  cases c <;> simp [allColors]

lemma centerColor_mem (s : List Sticker) (h : s.length = 9) :
    s.getD 4 default ∈ s := by
  have h4 : 4 < s.length := by omega
  rw [List.getD_eq_getElem s default h4]
  exact List.getElem_mem h4

lemma countColor_pos_iff (s : List Sticker) (c : Color) :
    0 < countColor s c ↔ ∃ x ∈ s, x.color = c := by
  unfold countColor
  rw [List.countP_pos_iff]
  simp

/-- For a 9-sticker face, the code's "only one distinct color occurs"
check is the claim's "all 9 stickers share one color". -/
lemma presentColors_length_one_iff (s : List Sticker) (h : s.length = 9) :
    (presentColors s).length = 1 ↔ ∀ x ∈ s, x.color = centerColor s := by
  constructor
  · intro h1 x hx
    obtain ⟨c0, hc0⟩ := List.length_eq_one.mp h1
    have hcenter : centerColor s ∈ presentColors s := by
      unfold presentColors
      rw [List.mem_filter]
      refine ⟨mem_allColors _, ?_⟩
      simp only [decide_eq_true_eq]
      exact (countColor_pos_iff s _).mpr ⟨s.getD 4 default, centerColor_mem s h, rfl⟩
    have hxc : x.color ∈ presentColors s := by
      unfold presentColors
      rw [List.mem_filter]
      refine ⟨mem_allColors _, ?_⟩
      simp only [decide_eq_true_eq]
      exact (countColor_pos_iff s _).mpr ⟨x, hx, rfl⟩
    rw [hc0] at hcenter hxc
    simp only [List.mem_singleton] at hcenter hxc
    rw [hxc, hcenter]
  · intro hall
    have hfilter : presentColors s = allColors.filter (fun c => decide (c = centerColor s)) := by
      unfold presentColors
      apply List.filter_congr
      intro c _
      simp only [decide_eq_decide]
      rw [countColor_pos_iff]
      constructor
      · rintro ⟨x, hx, rfl⟩
        exact hall x hx
      · rintro rfl
        exact ⟨s.getD 4 default, centerColor_mem s h, rfl⟩
    rw [hfilter]
    cases hc : centerColor s <;> decide

/-- C3.  `validateFaceColors` rejects exactly the four cases the claim
lists, and the three concrete scenarios behave as claimed: 8 Red + 1 White
with center Red passes, 9-of-one-color with center White passes,
9-of-one-color with center Red fails. -/
theorem validateFaceColors_invalid_iff :
    (∀ s : List Sticker, (validateFaceColors s).1 = false ↔ claimInvalidC3 s)
      ∧ (validateFaceColors ex8R1W).1 = true
      ∧ (validateFaceColors ex9W).1 = true
      ∧ (validateFaceColors ex9R).1 = false := by
  refine ⟨?_, by decide, by decide, by decide⟩
  intro s
  by_cases hlen : s.length = 9
  · have hne : ¬ s.length ≠ 9 := by simp [hlen]
    have hany_iff : (allColors.any
        (fun c => decide (c ≠ centerColor s) && decide (5 < countColor s c)) = true)
        ↔ ∃ c, c ≠ centerColor s ∧ 5 < countColor s c := by
      rw [List.any_eq_true]
      constructor
      · rintro ⟨c, _, hc⟩
        simp only [Bool.and_eq_true, decide_eq_true_eq] at hc
        exact ⟨c, hc.1, hc.2⟩
      · rintro ⟨c, hc1, hc2⟩
        exact ⟨c, mem_allColors c, by simp [hc1, hc2]⟩
    unfold validateFaceColors
    rw [if_neg hne]
    by_cases hc1 : (presentColors s).length = 1 ∧ centerColor s ≠ Color.W
    · rw [if_pos hc1]
      simp only [true_iff]
      exact Or.inr (Or.inl ⟨(presentColors_length_one_iff s hlen).mp hc1.1, hc1.2⟩)
    · rw [if_neg hc1]
      by_cases hc2 : allColors.any
          (fun c => decide (c ≠ centerColor s) && decide (5 < countColor s c)) = true
      · rw [if_pos hc2]
        simp only [true_iff]
        exact Or.inr (Or.inr (Or.inl (hany_iff.mp hc2)))
      · rw [if_neg hc2]
        by_cases hc3 : centerColor s ≠ Color.W ∧ 4 < countColor s Color.W
        · rw [if_pos hc3]
          simp only [true_iff]
          exact Or.inr (Or.inr (Or.inr ⟨hc3.2, hc3.1⟩))
        · rw [if_neg hc3]
          simp only [Bool.true_eq_false, false_iff]
          rintro (h | ⟨ha, hb⟩ | hex | ⟨ha, hb⟩)
          · exact h hlen
          · exact hc1 ⟨(presentColors_length_one_iff s hlen).mpr ha, hb⟩
          · exact hc2 (hany_iff.mpr hex)
          · exact hc3 ⟨hb, ha⟩
  · have hpos : s.length ≠ 9 := hlen
    unfold validateFaceColors
    rw [if_pos hpos]
    simp only [true_iff]
    exact Or.inl hpos

/-! ## Frame voting (`FrameVotingBuffer`, colorClassifier.ts lines 379-432) -/

/-- The state of a `FrameVotingBuffer`: the rolling buffer of per-frame
9-color vectors plus the two constructor parameters. -/
structure VotingBuffer where
  buffer : List (List Color)
  maxFrames : ℕ
  consensusThreshold : ℚ
deriving DecidableEq, Repr

/-- `new FrameVotingBuffer(maxFrames, consensusThreshold)` (also the state
after `reset()`, which empties the buffer). -/
def VotingBuffer.fresh (maxFrames : ℕ) (consensusThreshold : ℚ) : VotingBuffer :=
  { buffer := [], maxFrames := maxFrames, consensusThreshold := consensusThreshold }

/-- Count of frames of `buf` whose color at position `i` is `c`
(the `counts[frame[i]]++` tally of `getConsensus`).  Buffered frames always
have 9 entries (shorter ones are never pushed); `getD i default` stands for
`frame[i]`. -/
def countAt (buf : List (List Color)) (i : ℕ) (c : Color) : ℕ :=
  buf.countP (fun frame => decide (frame.getD i default = c))

/-- The `bestColor`/`bestCount` scan of `getConsensus`: fold over the six
color keys in `Object.entries` order, keeping the first strictly greater
count, starting from `('W', 0)`. -/
def bestAt (buf : List (List Color)) (i : ℕ) : Color × ℕ :=
  allColors.foldl
    (fun best c => if best.2 < countAt buf i c then (c, countAt buf i c) else best)
    (Color.W, 0)

/-- The `for (let i = 0; i < 9; i++)` loop of `getConsensus`, over an
explicit list of positions: `none` as soon as one position's best count
misses the threshold, otherwise the list of best colors. -/
def consensusLoop (buf : List (List Color)) (thr : ℤ) : List ℕ → Option (List Color)
  | [] => some []
  | i :: rest =>
      if ((bestAt buf i).2 : ℤ) < thr then none
      else
        match consensusLoop buf thr rest with
        | none => none
        | some l => some ((bestAt buf i).1 :: l)

/-- `getConsensus` of colorClassifier.ts: per position 0..8, the majority
color if its count reaches `ceil(buffer.length * consensusThreshold)`,
`none` as soon as one position misses the quorum. -/
def getConsensus (buf : List (List Color)) (t : ℚ) : Option (List Color) :=
  consensusLoop buf ⌈(buf.length : ℚ) * t⌉ (List.range 9)

/-- The buffer after `addFrame` pushes a frame: the new frame is appended
(`this.buffer.push`), and the oldest frame is shifted out when the length
exceeds `maxFrames` (`this.buffer.shift()`). -/
def newBuf (st : VotingBuffer) (colors : List Color) : List (List Color) :=
  if st.maxFrames < (st.buffer ++ [colors]).length then (st.buffer ++ [colors]).tail
  else st.buffer ++ [colors]

/-- `addFrame` of colorClassifier.ts: returns the consensus (if any) and
the successor state.  A vector that is not 9 long is rejected without
touching the buffer; the new frame is appended via `newBuf`; no result is
produced below 5 buffered frames. -/
def VotingBuffer.addFrame (st : VotingBuffer) (colors : List Color) :
    Option (List Color) × VotingBuffer :=
  if colors.length ≠ 9 then (none, st)
  else if (newBuf st colors).length < 5 then (none, { st with buffer := newBuf st colors })
  else (getConsensus (newBuf st colors) st.consensusThreshold,
        { st with buffer := newBuf st colors })

/-- Folding `addFrame` over a list of inputs, collecting each call's
result (most recent last). -/
def VotingBuffer.run (st : VotingBuffer) (inputs : List (List Color)) :
    VotingBuffer × List (Option (List Color)) :=
  match inputs with
  | [] => (st, [])
  | colors :: rest =>
      let (res, st') := st.addFrame colors
      let (stFin, results) := st'.run rest
      (stFin, res :: results)

lemma bestAt_spec (buf : List (List Color)) (i : ℕ) :
    ∀ c : Color, countAt buf i c ≤ (bestAt buf i).2 := by
  have key : ∀ (l : List Color) (acc : Color × ℕ),
      (∀ c ∈ l, countAt buf i c ≤ (l.foldl
        (fun best c => if best.2 < countAt buf i c then (c, countAt buf i c) else best)
        acc).2)
      ∧ acc.2 ≤ (l.foldl
        (fun best c => if best.2 < countAt buf i c then (c, countAt buf i c) else best)
        acc).2 := by
    intro l
    induction l with
    | nil => intro acc; exact ⟨by simp, le_refl _⟩
    | cons hd tl ih =>
        intro acc
        simp only [List.foldl_cons]
        by_cases hlt : acc.2 < countAt buf i hd
        · rw [if_pos hlt]
          refine ⟨?_, le_trans (le_of_lt hlt) (ih (hd, countAt buf i hd)).2⟩
          intro c hc
          rcases List.mem_cons.mp hc with rfl | hmem
          · exact (ih (c, countAt buf i c)).2
          · exact (ih _).1 c hmem
        · rw [if_neg hlt]
          refine ⟨?_, (ih _).2⟩
          intro c hc
          rcases List.mem_cons.mp hc with rfl | hmem
          · exact le_trans (le_of_not_lt hlt) (ih _).2
          · exact (ih _).1 c hmem
  intro c
  exact (key allColors (Color.W, 0)).1 c (mem_allColors c)

lemma bestAt_achieved (buf : List (List Color)) (i : ℕ) :
    (bestAt buf i).2 = countAt buf i (bestAt buf i).1 ∨ (bestAt buf i).2 = 0 := by
  have key : ∀ (l : List Color) (acc : Color × ℕ),
      acc.2 = countAt buf i acc.1 ∨ acc.2 = 0 →
      (l.foldl
        (fun best c => if best.2 < countAt buf i c then (c, countAt buf i c) else best)
        acc).2 = countAt buf i (l.foldl
        (fun best c => if best.2 < countAt buf i c then (c, countAt buf i c) else best)
        acc).1
      ∨ (l.foldl
        (fun best c => if best.2 < countAt buf i c then (c, countAt buf i c) else best)
        acc).2 = 0 := by
    intro l
    induction l with
    | nil => intro acc h; exact h
    | cons hd tl ih =>
        intro acc h
        simp only [List.foldl_cons]
        by_cases hlt : acc.2 < countAt buf i hd
        · rw [if_pos hlt]
          exact ih _ (Or.inl rfl)
        · rw [if_neg hlt]
          exact ih _ h
  exact key allColors (Color.W, 0) (Or.inr rfl)

lemma consensusLoop_some (buf : List (List Color)) (thr : ℤ) :
    ∀ (idxs : List ℕ) (out : List Color), consensusLoop buf thr idxs = some out →
      out.length = idxs.length
      ∧ ∀ k, k < idxs.length →
          thr ≤ ((bestAt buf (idxs.getD k 0)).2 : ℤ)
          ∧ out.getD k default = (bestAt buf (idxs.getD k 0)).1 := by
  intro idxs
  induction idxs with
  | nil =>
      intro out h
      simp only [consensusLoop] at h
      cases h
      exact ⟨rfl, by intro k hk; simp at hk⟩
  | cons i rest ih =>
      intro out h
      simp only [consensusLoop] at h
      by_cases hthr : ((bestAt buf i).2 : ℤ) < thr
      · rw [if_pos hthr] at h; cases h
      · rw [if_neg hthr] at h
        cases hrec : consensusLoop buf thr rest with
        | none => rw [hrec] at h; cases h
        | some l =>
            rw [hrec] at h
            cases h
            obtain ⟨hlen, hall⟩ := ih l hrec
            constructor
            · simp [hlen]
            · intro k hk
              cases k with
              | zero => exact ⟨le_of_not_lt hthr, rfl⟩
              | succ k' =>
                  simp only [List.length_cons] at hk
                  have hk' : k' < rest.length := by omega
                  simpa using hall k' hk'

/-- If one of the nine positions misses the quorum, `getConsensus` yields
`none` (contrapositive form of the membership below). -/
lemma getConsensus_spec (buf : List (List Color)) (t : ℚ) (out : List Color)
    (h : getConsensus buf t = some out) :
    out.length = 9 ∧ ∀ i, i < 9 →
      (⌈(buf.length : ℚ) * t⌉ ≤ (countAt buf i (out.getD i default) : ℤ))
      ∧ ∀ c : Color, countAt buf i c ≤ countAt buf i (out.getD i default) := by
  unfold getConsensus at h
  obtain ⟨hlen, hall⟩ := consensusLoop_some buf _ (List.range 9) out h
  have hrange : (List.range 9).length = 9 := by simp
  refine ⟨by rw [hlen, hrange], ?_⟩
  intro i hi
  have hk := hall i (by simpa [hrange] using hi)
  have hget : (List.range 9).getD i 0 = i := by
    rw [List.getD_eq_getElem _ _ (by simpa [hrange] using hi)]
    simp
  rw [hget] at hk
  obtain ⟨hthr, hout⟩ := hk
  have hmax := bestAt_spec buf i
  have hach := bestAt_achieved buf i
  rcases hach with hach | hzero
  · rw [hout]
    rw [← hach]
    exact ⟨hthr, hmax⟩
  · have hthr0 : ⌈(buf.length : ℚ) * t⌉ ≤ 0 := by rw [hzero] at hthr; exact_mod_cast hthr
    refine ⟨le_trans hthr0 (by positivity), ?_⟩
    intro c
    have := hmax c
    rw [hzero] at this
    have hcz : countAt buf i c = 0 := Nat.le_zero.mp this
    rw [hcz]
    exact Nat.zero_le _

/-- C5.  When `addFrame` accepts a 9-color vector into a well-formed
buffer, a returned result has, at every position, the majority color with
a count meeting `ceil(bufferLength * consensusThreshold)`; and if any
position lacks that quorum, the call returns `none`. -/
theorem addFrame_quorum_majority (st : VotingBuffer) (colors : List Color)
    (_hwf : ∀ f ∈ st.buffer, f.length = 9) (hc : colors.length = 9) :
    (∀ out, (st.addFrame colors).1 = some out →
        out.length = 9 ∧ ∀ i, i < 9 →
          (⌈((st.addFrame colors).2.buffer.length : ℚ) * st.consensusThreshold⌉
              ≤ (countAt (st.addFrame colors).2.buffer i (out.getD i default) : ℤ))
          ∧ ∀ c : Color, countAt (st.addFrame colors).2.buffer i c
              ≤ countAt (st.addFrame colors).2.buffer i (out.getD i default))
      ∧ ((∃ i, i < 9 ∧ ∀ c : Color,
            ((countAt (st.addFrame colors).2.buffer i c : ℤ)
              < ⌈((st.addFrame colors).2.buffer.length : ℚ) * st.consensusThreshold⌉)) →
          (st.addFrame colors).1 = none) := by
  have hne : ¬ colors.length ≠ 9 := by simp [hc]
  have hEq : st.addFrame colors =
      (if (newBuf st colors).length < 5
       then (none, { st with buffer := newBuf st colors })
       else (getConsensus (newBuf st colors) st.consensusThreshold,
             { st with buffer := newBuf st colors })) := by
    unfold VotingBuffer.addFrame
    rw [if_neg hne]
  rw [hEq]
  set buf2 := newBuf st colors with hbuf2
  by_cases hlt : buf2.length < 5
  · rw [if_pos hlt]
    constructor
    · intro out hout; cases hout
    · intro _; rfl
  · rw [if_neg hlt]
    constructor
    · intro out hout
      exact getConsensus_spec buf2 st.consensusThreshold out hout
    · rintro ⟨i, hi, hlack⟩
      cases hres : getConsensus buf2 st.consensusThreshold with
      | none => rfl
      | some out =>
          obtain ⟨_, hall⟩ := getConsensus_spec buf2 st.consensusThreshold out hres
          obtain ⟨hthr, _⟩ := hall i hi
          exact absurd hthr (not_le.mpr (hlack _))

/-- A concrete voting state for the C5 witness: four buffered all-Red
frames, capacity 10, quorum fraction 0.6. -/
def exVB : VotingBuffer :=
  { buffer := List.replicate 4 (List.replicate 9 Color.R),
    maxFrames := 10, consensusThreshold := 6/10 }

/-- A concrete all-Red frame. -/
def exFrame : List Color := List.replicate 9 Color.R

/-- Witness for C5: adding a fifth all-Red frame to `exVB` reaches quorum
and returns the all-Red consensus, whose positions all satisfy the
theorem's majority/quorum conclusion. -/
theorem addFrame_quorum_majority_witness :
    ((exVB.addFrame exFrame).1 = some (List.replicate 9 Color.R))
      ∧ ((List.replicate 9 Color.R).length = 9 ∧ ∀ i, i < 9 →
          (⌈((exVB.addFrame exFrame).2.buffer.length : ℚ) * exVB.consensusThreshold⌉
              ≤ (countAt (exVB.addFrame exFrame).2.buffer i
                  ((List.replicate 9 Color.R).getD i default) : ℤ))
          ∧ ∀ c : Color, countAt (exVB.addFrame exFrame).2.buffer i c
              ≤ countAt (exVB.addFrame exFrame).2.buffer i
                  ((List.replicate 9 Color.R).getD i default)) := by
  have h2 : getConsensus (List.replicate 4 (List.replicate 9 Color.R) ++ [exFrame]) (6/10)
      = consensusLoop (List.replicate 4 (List.replicate 9 Color.R) ++ [exFrame]) 3
          (List.range 9) := by
    unfold getConsensus
    norm_num
  have hres : (exVB.addFrame exFrame).1 = some (List.replicate 9 Color.R) := by
    have h1 : (exVB.addFrame exFrame).1 =
        getConsensus (List.replicate 4 (List.replicate 9 Color.R) ++ [exFrame]) (6/10) := rfl
    rw [h1, h2]
    decide
  exact ⟨hres,
    (addFrame_quorum_majority exVB exFrame (by decide) (by decide)).1
      (List.replicate 9 Color.R) hres⟩

lemma newBuf_length (st : VotingBuffer) (colors : List Color) :
    (newBuf st colors).length ≤ st.buffer.length + 1
      ∧ (st.buffer.length ≤ st.maxFrames → (newBuf st colors).length ≤ st.maxFrames) := by
  unfold newBuf
  by_cases hover : st.maxFrames < (st.buffer ++ [colors]).length
  · rw [if_pos hover]
    rw [List.length_tail]
    simp only [List.length_append, List.length_singleton] at *
    omega
  · rw [if_neg hover]
    simp only [List.length_append, List.length_singleton] at *
    omega

lemma addFrame_buffer_growth (st : VotingBuffer) (colors : List Color) :
    (st.addFrame colors).2.buffer.length ≤ st.buffer.length + 1
      ∧ (st.addFrame colors).2.maxFrames = st.maxFrames
      ∧ (st.addFrame colors).2.consensusThreshold = st.consensusThreshold
      ∧ (st.buffer.length ≤ st.maxFrames →
          (st.addFrame colors).2.buffer.length ≤ st.maxFrames) := by
  obtain ⟨hg, hcap⟩ := newBuf_length st colors
  unfold VotingBuffer.addFrame
  by_cases hc : colors.length ≠ 9
  · rw [if_pos hc]
    exact ⟨Nat.le_succ _, rfl, rfl, fun h => h⟩
  · rw [if_neg hc]
    by_cases h5 : (newBuf st colors).length < 5
    · rw [if_pos h5]
      exact ⟨hg, rfl, rfl, hcap⟩
    · rw [if_neg h5]
      exact ⟨hg, rfl, rfl, hcap⟩

lemma addFrame_result_none_of_small (st : VotingBuffer) (colors : List Color)
    (h : st.buffer.length + 1 < 5) : (st.addFrame colors).1 = none := by
  have hsmall : (newBuf st colors).length < 5 :=
    lt_of_le_of_lt (newBuf_length st colors).1 h
  unfold VotingBuffer.addFrame
  by_cases hc : colors.length ≠ 9
  · rw [if_pos hc]
  · rw [if_neg hc, if_pos hsmall]

lemma run_all_none_of_short (inputs : List (List Color)) :
    ∀ st : VotingBuffer, st.buffer.length + inputs.length < 5 →
      ∀ r ∈ (st.run inputs).2, r = none := by
  induction inputs with
  | nil =>
      intro st _ r hr
      simp only [VotingBuffer.run] at hr
      exact absurd hr (List.not_mem_nil r)
  | cons colors rest ih =>
      intro st hlen r hr
      simp only [VotingBuffer.run] at hr
      rcases List.mem_cons.mp hr with rfl | hmem
      · exact addFrame_result_none_of_small st colors (by simp at hlen; omega)
      · refine ih (st.addFrame colors).2 ?_ r hmem
        have := (addFrame_buffer_growth st colors).1
        simp only [List.length_cons] at hlen
        omega

lemma run_maxFrames (inputs : List (List Color)) :
    ∀ st : VotingBuffer, (st.run inputs).1.maxFrames = st.maxFrames := by
  induction inputs with
  | nil => intro st; rfl
  | cons colors rest ih =>
      intro st
      simp only [VotingBuffer.run]
      rw [ih]
      exact (addFrame_buffer_growth st colors).2.1

lemma run_capacity (inputs : List (List Color)) :
    ∀ st : VotingBuffer, st.buffer.length ≤ st.maxFrames →
      (st.run inputs).1.buffer.length ≤ (st.run inputs).1.maxFrames := by
  induction inputs with
  | nil => intro st h; exact h
  | cons colors rest ih =>
      intro st h
      simp only [VotingBuffer.run]
      obtain ⟨_, hmax, _, hcap⟩ := addFrame_buffer_growth st colors
      refine ih (st.addFrame colors).2 ?_
      rw [hmax]
      exact hcap h

/-- C6.  (i) Starting from a freshly constructed (or reset) buffer, any
sequence of fewer than 5 `addFrame` calls yields `none` on every call,
whatever the supplied vectors; (ii) the buffer never exceeds `maxFrames`
along any run from a fresh buffer; (iii) a 9-entry frame pushed into a
buffer at (or beyond) capacity drops the oldest frame: the new buffer is
the old one's tail plus the new frame. -/
theorem votingBuffer_warmup_capacity_fifo :
    (∀ (mf : ℕ) (t : ℚ) (inputs : List (List Color)), inputs.length < 5 →
        ∀ r ∈ ((VotingBuffer.fresh mf t).run inputs).2, r = none)
      ∧ (∀ (mf : ℕ) (t : ℚ) (inputs : List (List Color)),
          ((VotingBuffer.fresh mf t).run inputs).1.buffer.length ≤ mf)
      ∧ (∀ (st : VotingBuffer) (colors : List Color), colors.length = 9 →
          1 ≤ st.maxFrames → st.maxFrames ≤ st.buffer.length →
          (st.addFrame colors).2.buffer = st.buffer.tail ++ [colors]) := by
  refine ⟨?_, ?_, ?_⟩
  · intro mf t inputs hshort
    exact run_all_none_of_short inputs (VotingBuffer.fresh mf t)
      (by simpa [VotingBuffer.fresh] using hshort)
  · intro mf t inputs
    have h := run_capacity inputs (VotingBuffer.fresh mf t) (by simp [VotingBuffer.fresh])
    rwa [run_maxFrames inputs (VotingBuffer.fresh mf t)] at h
  · intro st colors hc h1 hcap
    have hover : st.maxFrames < (st.buffer ++ [colors]).length := by
      simp only [List.length_append, List.length_singleton]
      omega
    have hnew : newBuf st colors = st.buffer.tail ++ [colors] := by
      unfold newBuf
      rw [if_pos hover]
      cases hb : st.buffer with
      | nil => exfalso; rw [hb] at hcap; simp at hcap; omega
      | cons a l => simp
    unfold VotingBuffer.addFrame
    rw [if_neg (by simp [hc])]
    by_cases h5 : (newBuf st colors).length < 5
    · rw [if_pos h5]; simpa using hnew
    · rw [if_neg h5]; simpa using hnew

/-! ## Cross-face correction (`centerAnchoredCorrection`,
colorClassifier.ts lines 437-483) -/

/-- Global tally of color `c`: all stickers of the already-accepted faces
(`Object.values(scannedFaces)`) plus the candidate's. -/
def globalCount (faces : List (List Sticker)) (cand : List Sticker) (c : Color) : ℕ :=
  (faces.map (fun f => countColor f c)).sum + countColor cand c

/-- `Object.entries(globalCounts).filter(([, c]) => c > 9)`, in the key
order R,O,Y,G,B,W of the `globalCounts` literal. -/
def overCounts (faces : List (List Sticker)) (cand : List Sticker) : List (Color × ℕ) :=
  (allColors.map (fun c => (c, globalCount faces cand c))).filter (fun p => decide (9 < p.2))

/-- `Object.entries(globalCounts).filter(([, c]) => c < 9)`. -/
def underCounts (faces : List (List Sticker)) (cand : List Sticker) : List (Color × ℕ) :=
  (allColors.map (fun c => (c, globalCount faces cand c))).filter (fun p => decide (p.2 < 9))

/-- The `confusable` pair list of `centerAnchoredCorrection` — all
directions, in source order. -/
def confusable : List (Color × Color) :=
  [(.R, .O), (.O, .Y), (.W, .Y), (.O, .R), (.Y, .O), (.Y, .W)]

/-- `confusable.find(([a, b]) => (a === over && b === under) || (b === over
&& a === under))` succeeds. -/
def confusablePair (over under : Color) : Bool :=
  confusable.any (fun p =>
    (decide (p.1 = over) && decide (p.2 = under)) || (decide (p.2 = over) && decide (p.1 = under)))

/-- The repaint loop
`for (let i = 0; i < 9 && swapped < excess; i++) ...` over an explicit
index list, carrying the `swapped` counter.  Index 4 (the center) is
skipped; a sticker whose color is `over` is repainted to `under`.
(At an index beyond the list's length the JS code would fault reading
`corrected[i].color`; the embedding skips it — the two agree on the
9-sticker faces the pipeline produces.) -/
def repaintLoop (over under : Color) (excess : ℕ) :
    List ℕ → ℕ → List Sticker → List Sticker
  | [], _, l => l
  | i :: rest, swapped, l =>
      if excess ≤ swapped then l
      else if i = 4 then repaintLoop over under excess rest swapped l
      else
        match l[i]? with
        | some stk =>
            if stk.color = over then
              repaintLoop over under excess rest (swapped + 1)
                (l.set i { stk with color := under })
            else repaintLoop over under excess rest swapped l
        | none => repaintLoop over under excess rest swapped l

/-- One (over, under) step of the nested loops of
`centerAnchoredCorrection`: when the pair is confusable, repaint up to
`overCount - 9` non-center stickers of color `over` to `under`. -/
def applyPair (over : Color) (overCount : ℕ) (under : Color) (l : List Sticker) : List Sticker :=
  if confusablePair over under then
    repaintLoop over under (overCount - 9) (List.range 9) 0 l
  else l

/-- `centerAnchoredCorrection` of colorClassifier.ts: tally global counts,
and for every over-counted color and every under-counted color forming a
confusable pair, repaint the candidate's excess stickers.  The over/under
counts are computed once, before any repainting (as in the source). -/
def centerAnchoredCorrection (stickers : List Sticker) (scannedFaces : List (List Sticker)) :
    List Sticker :=
  if (overCounts scannedFaces stickers).isEmpty ∨ (underCounts scannedFaces stickers).isEmpty
  then stickers
  else
    (overCounts scannedFaces stickers).foldl
      (fun acc p =>
        (underCounts scannedFaces stickers).foldl
          (fun acc2 q => applyPair p.1 p.2 q.1 acc2) acc)
      stickers

/-- "`l2` is `l1` with some non-center stickers repainted": same length,
identical center slot, and every slot either unchanged or with rgb/hsv
intact. -/
def colorOnlyChange (l1 l2 : List Sticker) : Prop :=
  l2.length = l1.length
    ∧ l2[4]? = l1[4]?
    ∧ ∀ j : ℕ, l2[j]? = l1[j]?
        ∨ ∃ stk stk', l1[j]? = some stk ∧ l2[j]? = some stk'
            ∧ stk'.rgb = stk.rgb ∧ stk'.hsv = stk.hsv

lemma colorOnlyChange_refl (l : List Sticker) : colorOnlyChange l l :=
  ⟨rfl, rfl, fun _ => Or.inl rfl⟩

lemma colorOnlyChange_trans {l1 l2 l3 : List Sticker}
    (h12 : colorOnlyChange l1 l2) (h23 : colorOnlyChange l2 l3) :
    colorOnlyChange l1 l3 := by
  obtain ⟨hlen12, hc12, hp12⟩ := h12
  obtain ⟨hlen23, hc23, hp23⟩ := h23
  refine ⟨hlen23.trans hlen12, hc23.trans hc12, ?_⟩
  intro j
  rcases hp23 j with h3 | ⟨stk2, stk3, hg2, hg3, hr, hh⟩
  · rw [h3]; exact hp12 j
  · rcases hp12 j with h2 | ⟨stk1, stk2x, hg1, hg2x, hrx, hhx⟩
    · rw [h2] at hg2
      exact Or.inr ⟨stk2, stk3, hg2, hg3, hr, hh⟩
    · rw [hg2x] at hg2
      cases hg2
      exact Or.inr ⟨stk1, stk3, hg1, hg3, hr.trans hrx, hh.trans hhx⟩

lemma repaintLoop_colorOnly (over under : Color) (excess : ℕ) :
    ∀ (idxs : List ℕ) (swapped : ℕ) (l : List Sticker),
      colorOnlyChange l (repaintLoop over under excess idxs swapped l) := by
  intro idxs
  induction idxs with
  | nil => intro swapped l; exact colorOnlyChange_refl l
  | cons i rest ih =>
      intro swapped l
      show colorOnlyChange l (repaintLoop over under excess (i :: rest) swapped l)
      rw [repaintLoop]
      by_cases hstop : excess ≤ swapped
      · rw [if_pos hstop]; exact colorOnlyChange_refl l
      · rw [if_neg hstop]
        by_cases hi4 : i = 4
        · rw [if_pos hi4]; exact ih swapped l
        · rw [if_neg hi4]
          cases hget : l[i]? with
          | none => exact ih swapped l
          | some stk =>
              simp only
              by_cases hcol : stk.color = over
              · rw [if_pos hcol]
                refine colorOnlyChange_trans ?_ (ih _ _)
                refine ⟨List.length_set l i _, ?_, ?_⟩
                · exact List.getElem?_set_ne (by omega)
                · intro j
                  by_cases hj : i = j
                  · subst hj
                    have hlt : i < l.length := (List.getElem?_eq_some_iff.mp hget).1
                    right
                    exact ⟨stk, { stk with color := under }, hget,
                      List.getElem?_set_eq_of_lt _ hlt, rfl, rfl⟩
                  · left
                    exact List.getElem?_set_ne hj
              · rw [if_neg hcol]
                exact ih swapped l

lemma foldl_colorOnly {α : Type} (f : List Sticker → α → List Sticker)
    (hf : ∀ acc e, colorOnlyChange acc (f acc e)) :
    ∀ (es : List α) (acc : List Sticker), colorOnlyChange acc (es.foldl f acc) := by
  intro es
  induction es with
  | nil => intro acc; exact colorOnlyChange_refl acc
  | cons e rest ih =>
      intro acc
      exact colorOnlyChange_trans (hf acc e) (ih (f acc e))

lemma applyPair_colorOnly (over : Color) (overCount : ℕ) (under : Color)
    (l : List Sticker) : colorOnlyChange l (applyPair over overCount under l) := by
  unfold applyPair
  by_cases hp : confusablePair over under = true
  · rw [if_pos hp]
    exact repaintLoop_colorOnly over under _ _ 0 l
  · rw [if_neg hp]
    exact colorOnlyChange_refl l

lemma centerAnchoredCorrection_colorOnly (s : List Sticker) (f : List (List Sticker)) :
    colorOnlyChange s (centerAnchoredCorrection s f) := by
  unfold centerAnchoredCorrection
  by_cases hempty : (overCounts f s).isEmpty ∨ (underCounts f s).isEmpty
  · rw [if_pos hempty]; exact colorOnlyChange_refl s
  · rw [if_neg hempty]
    refine foldl_colorOnly
      (fun acc p => (underCounts f s).foldl (fun acc2 q => applyPair p.1 p.2 q.1 acc2) acc)
      ?_ (overCounts f s) s
    intro acc p
    exact foldl_colorOnly (fun acc2 q => applyPair p.1 p.2 q.1 acc2)
      (fun acc2 q => applyPair_colorOnly p.1 p.2 q.1 acc2) (underCounts f s) acc

/-- C4 (amended).  Cross-face correction always returns a face with the
same total number of stickers as its input. -/
theorem centerAnchoredCorrection_length (s : List Sticker) (f : List (List Sticker)) :
    (centerAnchoredCorrection s f).length = s.length :=
  (centerAnchoredCorrection_colorOnly s f).1

/-- The candidate face of the C4 counterexample:
`[O,O,O,W,G,W,W,Y,Y]` (center G at index 4). -/
def exCand : List Sticker :=
  [mkSticker .O, mkSticker .O, mkSticker .O, mkSticker .W, mkSticker .G,
   mkSticker .W, mkSticker .W, mkSticker .Y, mkSticker .Y]

/-- The accepted faces of the C4 counterexample: an all-Orange face, an
all-White face, an all-Red face, and a face of 6 Yellow + 3 Green. -/
def exFaces : List (List Sticker) :=
  [List.replicate 9 (mkSticker .O), List.replicate 9 (mkSticker .W),
   List.replicate 9 (mkSticker .R),
   List.replicate 6 (mkSticker .Y) ++ List.replicate 3 (mkSticker .G)]

/-- C4 counterexample.  Before correction the global counts are
R 9, O 12, Y 8, G 4, B 0, W 12 (maximum 12), yet after
`centerAnchoredCorrection` the global count of Yellow is 14 > 12: the
excess of Orange and the excess of White are both dumped onto Yellow
because the over/under tallies are computed once, before repainting.
The total sticker count is still preserved. -/
theorem centerAnchoredCorrection_count_cex :
    (allColors.map (globalCount exFaces exCand)) = [9, 12, 8, 4, 0, 12]
      ∧ globalCount exFaces (centerAnchoredCorrection exCand exFaces) Color.Y = 14
      ∧ (centerAnchoredCorrection exCand exFaces).length = exCand.length := by
  refine ⟨by decide, by decide, by decide⟩

/-- C10.  On a 9-sticker candidate, cross-face correction returns exactly
9 stickers, keeps the center slot (index 4) identical, and changes every
other sticker at most in its color field (rgb and hsv are untouched). -/
theorem centerAnchoredCorrection_frame (s : List Sticker) (f : List (List Sticker))
    (h : s.length = 9) :
    (centerAnchoredCorrection s f).length = 9
      ∧ (centerAnchoredCorrection s f)[4]? = s[4]?
      ∧ ∀ j : ℕ, (centerAnchoredCorrection s f)[j]? = s[j]?
          ∨ ∃ stk stk', s[j]? = some stk ∧ (centerAnchoredCorrection s f)[j]? = some stk'
              ∧ stk'.rgb = stk.rgb ∧ stk'.hsv = stk.hsv := by
  obtain ⟨hlen, hc, hp⟩ := centerAnchoredCorrection_colorOnly s f
  exact ⟨hlen.trans h, hc, hp⟩

/-- Witness for C10 at the concrete 9-sticker candidate `exCand`. -/
theorem centerAnchoredCorrection_frame_witness :
    exCand.length = 9
      ∧ ((centerAnchoredCorrection exCand exFaces).length = 9
          ∧ (centerAnchoredCorrection exCand exFaces)[4]? = exCand[4]?
          ∧ ∀ j : ℕ, (centerAnchoredCorrection exCand exFaces)[j]? = exCand[j]?
              ∨ ∃ stk stk', exCand[j]? = some stk
                  ∧ (centerAnchoredCorrection exCand exFaces)[j]? = some stk'
                  ∧ stk'.rgb = stk.rgb ∧ stk'.hsv = stk.hsv) :=
  ⟨by decide, centerAnchoredCorrection_frame exCand exFaces (by decide)⟩

/-! ## Lab nearest-reference classification (colorClassifier.ts lines
83-170).  The live classifier's `deltaE` is CIE76 — the plain Euclidean
distance in Lab space; distances are embedded by their squares. -/

/-- The 18 measured reference Lab values `COLOR_REFS` (three per color,
colorClassifier.ts lines 83-108). -/
def COLOR_REFS : List (Color × Lab) :=
  [(.R, (40, 55, 30)), (.R, (35, 60, 25)), (.R, (45, 50, 20)),
   (.O, (62, 40, 60)), (.O, (58, 45, 55)), (.O, (65, 35, 65)),
   (.Y, (90, -5, 80)), (.Y, (85, 0, 75)), (.Y, (88, -10, 70)),
   (.G, (48, -45, 30)), (.G, (45, -40, 25)), (.G, (52, -50, 35)),
   (.B, (35, 20, -55)), (.B, (30, 15, -50)), (.B, (40, 10, -45)),
   (.W, (95, 0, 2)), (.W, (90, 2, 5)), (.W, (85, 0, 8))]

/-- The square of the code's `deltaE(lab1, lab2)` — the code returns
`Math.sqrt((ΔL)² + (Δa)² + (Δb)²)` (CIE76) and only ever compares it, so
the square is the faithful computable embedding. -/
def deltaESq (lab1 lab2 : Lab) : ℚ :=
  (lab1.1 - lab2.1)^2 + (lab1.2.1 - lab2.2.1)^2 + (lab1.2.2 - lab2.2.2)^2

/-- The `bestColor`/`bestDist` scan of `classifyColor`: fold over
`COLOR_REFS` keeping the first strict improvement; `none` stands for the
initial `Infinity`. -/
def pickBest (lab : Lab) : Color × Option ℚ :=
  COLOR_REFS.foldl
    (fun best ref =>
      match best.2 with
      | none => (ref.1, some (deltaESq lab ref.2))
      | some bd =>
          if deltaESq lab ref.2 < bd then (ref.1, some (deltaESq lab ref.2)) else best)
    (Color.W, none)

/-- `hsvFallback` of colorClassifier.ts (lines 161-170). -/
def hsvFallback (h s v : ℚ) : Color :=
  if s < 55 ∧ 150 < v then .W
  else if 90 ≤ h ∧ h ≤ 130 ∧ 40 < s then .B
  else if 36 ≤ h ∧ h ≤ 85 ∧ 40 < s then .G
  else if 21 ≤ h ∧ h ≤ 38 ∧ 60 < s ∧ 140 < v then .Y
  else if (h ≤ 25 ∨ 165 ≤ h) ∧ 60 < s then (if 10 ≤ h ∧ h ≤ 25 then .O else .R)
  else .W

/-- `classifyColor` of colorClassifier.ts (lines 128-158), with the
sample's Lab value (`rgbToLab(rgb)` in the source — transcendental, hence
carried as input) as an argument.  `bestDist > 60` is embedded as
`3600 < bestDistSq`. -/
def classifyColorLab (h s v : ℚ) (lab : Lab) : Color :=
  if s < 45 ∧ 160 < v then .W
  else if s < 30 then .W
  else
    match pickBest lab with
    | (bc, some bd) => if 3600 < bd then hsvFallback h s v else bc
    | (bc, none) => bc

lemma pickBest_go (lab : Lab) :
    ∀ (l : List (Color × Lab)) (c0 : Color) (bd0 : ℚ),
      ∃ m, (l.foldl
          (fun best ref =>
            match best.2 with
            | none => (ref.1, some (deltaESq lab ref.2))
            | some bd =>
                if deltaESq lab ref.2 < bd then (ref.1, some (deltaESq lab ref.2)) else best)
          (c0, some bd0)).2 = some m
        ∧ m ≤ bd0
        ∧ (∀ ref ∈ l, m ≤ deltaESq lab ref.2)
        ∧ (((l.foldl
          (fun best ref =>
            match best.2 with
            | none => (ref.1, some (deltaESq lab ref.2))
            | some bd =>
                if deltaESq lab ref.2 < bd then (ref.1, some (deltaESq lab ref.2)) else best)
          (c0, some bd0)).1 = c0 ∧ m = bd0)
          ∨ (∃ ref ∈ l, (l.foldl
          (fun best ref =>
            match best.2 with
            | none => (ref.1, some (deltaESq lab ref.2))
            | some bd =>
                if deltaESq lab ref.2 < bd then (ref.1, some (deltaESq lab ref.2)) else best)
          (c0, some bd0)).1 = ref.1 ∧ m = deltaESq lab ref.2)) := by
  intro l
  induction l with
  | nil =>
      intro c0 bd0
      exact ⟨bd0, rfl, le_refl _, by simp, Or.inl ⟨rfl, rfl⟩⟩
  | cons ref rest ih =>
      intro c0 bd0
      simp only [List.foldl_cons]
      by_cases hlt : deltaESq lab ref.2 < bd0
      · rw [if_pos hlt]
        obtain ⟨m, hm, hle, hall, hend⟩ := ih ref.1 (deltaESq lab ref.2)
        refine ⟨m, hm, le_trans hle (le_of_lt hlt), ?_, ?_⟩
        · intro r hr
          rcases List.mem_cons.mp hr with rfl | hmem
          · exact hle
          · exact hall r hmem
        · rcases hend with ⟨hc, hmeq⟩ | ⟨r, hr, hc, hmeq⟩
          · exact Or.inr ⟨ref, List.mem_cons_self _ _, hc, hmeq⟩
          · exact Or.inr ⟨r, List.mem_cons_of_mem _ hr, hc, hmeq⟩
      · rw [if_neg hlt]
        obtain ⟨m, hm, hle, hall, hend⟩ := ih c0 bd0
        refine ⟨m, hm, hle, ?_, ?_⟩
        · intro r hr
          rcases List.mem_cons.mp hr with rfl | hmem
          · exact le_trans hle (le_of_not_lt hlt)
          · exact hall r hmem
        · rcases hend with ⟨hc, hmeq⟩ | ⟨r, hr, hc, hmeq⟩
          · exact Or.inl ⟨hc, hmeq⟩
          · exact Or.inr ⟨r, List.mem_cons_of_mem _ hr, hc, hmeq⟩

/-- `pickBest` returns a reference of minimal (squared) CIE76 distance,
with its distance. -/
lemma pickBest_argmin (lab : Lab) :
    ∃ ref ∈ COLOR_REFS, (pickBest lab).1 = ref.1
      ∧ (pickBest lab).2 = some (deltaESq lab ref.2)
      ∧ ∀ refx ∈ COLOR_REFS, deltaESq lab ref.2 ≤ deltaESq lab refx.2 := by
  have hsplit : COLOR_REFS = (Color.R, ((40 : ℚ), (55 : ℚ), (30 : ℚ))) :: COLOR_REFS.tail := rfl
  unfold pickBest
  rw [hsplit, List.foldl_cons]
  obtain ⟨m, hm, hle, hall, hend⟩ :=
    pickBest_go lab COLOR_REFS.tail Color.R (deltaESq lab (40, 55, 30))
  rcases hend with ⟨hc, hmeq⟩ | ⟨r, hr, hc, hmeq⟩
  · refine ⟨(Color.R, (40, 55, 30)), List.mem_cons_self _ _, hc, ?_, ?_⟩
    · rw [hm, hmeq]
    · intro refx hrefx
      rcases List.mem_cons.mp hrefx with h | hmem
      · rw [h]
      · rw [← hmeq]
        exact hall refx hmem
  · refine ⟨r, List.mem_cons_of_mem _ hr, hc, ?_, ?_⟩
    · rw [hm, hmeq]
    · intro refx hrefx
      rcases List.mem_cons.mp hrefx with h | hmem
      · rw [h, ← hmeq]
        exact hle
      · rw [← hmeq]
        exact hall refx hmem

/-- C1 (amended).  When the HSV white-guard does not fire and some
reference is within deltaE 60 (squared: 3600) of the sample's Lab value,
the live classifier assigns the color of a reference of minimal CIE76
(squared-Euclidean) Lab distance among the 18 references. -/
theorem classifyColor_nearest_euclid (h s v : ℚ) (lab : Lab)
    (hg1 : ¬ (s < 45 ∧ 160 < v)) (hg2 : ¬ s < 30)
    (hnear : ∃ ref ∈ COLOR_REFS, deltaESq lab ref.2 ≤ 3600) :
    ∃ ref ∈ COLOR_REFS, classifyColorLab h s v lab = ref.1
      ∧ ∀ refx ∈ COLOR_REFS, deltaESq lab ref.2 ≤ deltaESq lab refx.2 := by
  obtain ⟨best, hbest, hc, hdist, hmin⟩ := pickBest_argmin lab
  obtain ⟨near, hnearMem, hnearLe⟩ := hnear
  refine ⟨best, hbest, ?_, hmin⟩
  unfold classifyColorLab
  rw [if_neg hg1, if_neg hg2]
  have hfar : ¬ 3600 < deltaESq lab best.2 :=
    not_lt.mpr (le_trans (hmin near hnearMem) hnearLe)
  cases hpb : pickBest lab with
  | mk bc obd =>
      rw [hpb] at hc hdist
      simp only at hc hdist
      rw [hdist]
      simp only
      rw [if_neg hfar]
      exact hc

/-- Witness for C1's amended theorem at the sample whose Lab value is
exactly the first Red reference (40, 55, 30), with hsv (0, 100, 100). -/
theorem classifyColor_nearest_euclid_witness :
    (¬ ((100 : ℚ) < 45 ∧ (160 : ℚ) < 100)) ∧ (¬ (100 : ℚ) < 30)
      ∧ (∃ ref ∈ COLOR_REFS, deltaESq (40, 55, 30) ref.2 ≤ 3600)
      ∧ (∃ ref ∈ COLOR_REFS, classifyColorLab 0 100 100 (40, 55, 30) = ref.1
          ∧ ∀ refx ∈ COLOR_REFS, deltaESq (40, 55, 30) ref.2 ≤ deltaESq (40, 55, 30) refx.2) := by
  have h1 : ¬ ((100 : ℚ) < 45 ∧ (160 : ℚ) < 100) := by norm_num
  have h2 : ¬ (100 : ℚ) < 30 := by norm_num
  have h3 : ∃ ref ∈ COLOR_REFS, deltaESq (40, 55, 30) ref.2 ≤ 3600 := by
    refine ⟨(Color.R, (40, 55, 30)), by norm_num [COLOR_REFS], ?_⟩
    norm_num [deltaESq]
  exact ⟨h1, h2, h3, classifyColor_nearest_euclid 0 100 100 (40, 55, 30) h1 h2 h3⟩

/-- C1 counterexample.  The distance the live classifier computes is
*exactly* the squared-Euclidean (CIE76) Lab distance — the claim says it
is CIEDE2000 and "not simple Euclidean Lab distance".  Concretely, from
Lab (40,55,30) to the reference (35,60,25) the code's squared distance is
5² + 5² + 5² = 75, and the code's distance is invariant under a pure
lightness translation: the pair ((0,0,0),(10,0,0)) and the pair
((80,0,0),(90,0,0)) get the same value 100, whereas CIEDE2000's SL
lightness weighting gives ≈5.98 and ≈6.57 respectively (the full formula
with chroma/hue weighting lives only in the unwired revision of the
classifier, src/unnamed/part_007). -/
theorem deltaE_is_euclid_cex :
    deltaESq (40, 55, 30) (35, 60, 25)
        = ((40 : ℚ) - 35)^2 + ((55 : ℚ) - 60)^2 + ((30 : ℚ) - 25)^2
      ∧ deltaESq (40, 55, 30) (35, 60, 25) = 75
      ∧ deltaESq (0, 0, 0) (10, 0, 0) = deltaESq (80, 0, 0) (90, 0, 0)
      ∧ deltaESq (0, 0, 0) (10, 0, 0) = 100 := by
  refine ⟨rfl, by norm_num [deltaESq], by norm_num [deltaESq], by norm_num [deltaESq]⟩

/-! ## Face-level refinement (`resolveRedOrange`, colorClassifier.ts
lines 181-245).  The pass collects the stickers currently assigned R or O,
scores them by the Lab b-value of their rgb (computed through `rgbToLab`,
abstracted as the `labFn` parameter), and repaints only those stickers. -/

/-- One element of the `roIndices` array of `resolveRedOrange`. -/
structure ROEntry where
  idx : ℕ
  bLab : ℚ
  aLab : ℚ
  lLab : ℚ
deriving DecidableEq, Repr, Inhabited

/-- The `roIndices` collection loop: index plus b/a/L of
`labFn(sticker.rgb)` for every sticker assigned Red or Orange. -/
def roEntries (labFn : RGB → Lab) (stickers : List Sticker) : List ROEntry :=
  stickers.enum.filterMap (fun p =>
    if p.2.color = Color.R ∨ p.2.color = Color.O then
      some { idx := p.1, bLab := (labFn p.2.rgb).2.2, aLab := (labFn p.2.rgb).2.1,
             lLab := (labFn p.2.rgb).1 }
    else none)

/-- The comparator `(a, b) => a.bLab - b.bLab` as a total order. -/
def roLE : ROEntry → ROEntry → Prop := fun x y => x.bLab ≤ y.bLab

instance : DecidableRel roLE := fun x y => inferInstanceAs (Decidable (x.bLab ≤ y.bLab))

instance : IsTotal ROEntry roLE := ⟨fun x y => le_total x.bLab y.bLab⟩

instance : IsTrans ROEntry roLE := ⟨fun _ _ _ => le_trans⟩

instance : IsRefl ROEntry roLE := ⟨fun x => le_refl x.bLab⟩

/-- `roIndices.sort((a, b) => a.bLab - b.bLab)` — a stable ascending sort
by b-value (insertionSort with `≤` is stable, as JS `Array.sort` is). -/
def roSorted (labFn : RGB → Lab) (stickers : List Sticker) : List ROEntry :=
  List.insertionSort roLE (roEntries labFn stickers)

/-- `reduce((s, v) => s + v, 0) / length`. -/
def avgOf (l : List ℚ) : ℚ := l.sum / l.length

/-- `maxB - minB` over the sorted b-values (first and last element). -/
def roSpread (labFn : RGB → Lab) (stickers : List Sticker) : ℚ :=
  ((roSorted labFn stickers).map ROEntry.bLab).getLastD 0
    - ((roSorted labFn stickers).map ROEntry.bLab).headI

/-- Consecutive differences `bValues[i+1] - bValues[i]`. -/
def gapsOf (l : List ℚ) : List ℚ := (l.zip l.tail).map (fun p => p.2 - p.1)

/-- The `bestGap`/`bestSplitIdx` scan: largest gap (strict improvement,
first maximum), starting from `(0, 0)`. -/
def bestGapScan (l : List ℚ) : ℚ × ℕ :=
  (gapsOf l).enum.foldl (fun best p => if best.1 < p.2 then (p.2, p.1) else best) (0, 0)

/-- The assignment loops `result[idx] = { ...result[idx], color }` over a
list of target indices. -/
def assignColor (targets : List ℕ) (c : Color) (l : List Sticker) : List Sticker :=
  targets.foldl (fun acc i =>
    match acc[i]? with
    | some stk => acc.set i { stk with color := c }
    | none => acc) l

/-- The small-spread rule: `(avgB > 40 && avgA < 50) ? 'O' : 'R'`. -/
def roColorSmall (sorted : List ROEntry) : Color :=
  if 40 < avgOf (sorted.map ROEntry.bLab) ∧ avgOf (sorted.map ROEntry.aLab) < 50
  then .O else .R

/-- The no-clear-gap rule: `avgB > 40 ? 'O' : 'R'`. -/
def roColorAvg (sorted : List ROEntry) : Color :=
  if 40 < avgOf (sorted.map ROEntry.bLab) then .O else .R

/-- `resolveRedOrange` of colorClassifier.ts: with ≤ 1 R/O stickers the
face is returned unchanged; with spread < 12 all R/O stickers get the
average-rule color; with a largest consecutive gap > 6 the sorted subset
is split at that gap (low side Red, high side Orange); otherwise all get
the `avgB > 40` color. -/
def resolveRedOrange (labFn : RGB → Lab) (stickers : List Sticker) : List Sticker :=
  if (roEntries labFn stickers).length ≤ 1 then stickers
  else if roSpread labFn stickers < 12 then
    assignColor ((roSorted labFn stickers).map ROEntry.idx)
      (roColorSmall (roSorted labFn stickers)) stickers
  else if 6 < (bestGapScan ((roSorted labFn stickers).map ROEntry.bLab)).1 then
    assignColor
      (((roSorted labFn stickers).drop
          ((bestGapScan ((roSorted labFn stickers).map ROEntry.bLab)).2 + 1)).map ROEntry.idx)
      Color.O
      (assignColor
        (((roSorted labFn stickers).take
            ((bestGapScan ((roSorted labFn stickers).map ROEntry.bLab)).2 + 1)).map ROEntry.idx)
        Color.R stickers)
  else
    assignColor ((roSorted labFn stickers).map ROEntry.idx)
      (roColorAvg (roSorted labFn stickers)) stickers

lemma assignColor_getElem (c : Color) :
    ∀ (targets : List ℕ) (l : List Sticker) (j : ℕ),
      (j ∉ targets → (assignColor targets c l)[j]? = l[j]?)
      ∧ (j ∈ targets → ∀ stk, l[j]? = some stk →
          (assignColor targets c l)[j]? = some { stk with color := c }) := by
  intro targets
  induction targets with
  | nil =>
      intro l j
      exact ⟨fun _ => rfl, fun hj => absurd hj (List.not_mem_nil j)⟩
  | cons i rest ih =>
      intro l j
      have hstep : assignColor (i :: rest) c l = assignColor rest c
          (match l[i]? with
           | some stk => l.set i { stk with color := c }
           | none => l) := by
        unfold assignColor
        rw [List.foldl_cons]
      constructor
      · intro hj
        have hji : j ≠ i := fun h => hj (h ▸ List.mem_cons_self i rest)
        have hjr : j ∉ rest := fun h => hj (List.mem_cons_of_mem i h)
        rw [hstep]
        cases hget : l[i]? with
        | none => exact (ih l j).1 hjr
        | some stk =>
            rw [(ih _ j).1 hjr]
            exact List.getElem?_set_ne (fun h => hji h.symm)
      · intro hj stk hstk
        rw [hstep]
        by_cases hji : j = i
        · subst hji
          rw [hstk]
          have hlt : j < l.length := (List.getElem?_eq_some_iff.mp hstk).1
          have hset : (l.set j { stk with color := c })[j]? = some { stk with color := c } :=
            List.getElem?_set_eq_of_lt _ hlt
          by_cases hjr : j ∈ rest
          · exact (ih _ j).2 hjr { stk with color := c } hset
          · rw [(ih _ j).1 hjr]
            exact hset
        · have hjr : j ∈ rest := by
            rcases List.mem_cons.mp hj with h | h
            · exact absurd h hji
            · exact h
          cases hget : l[i]? with
          | none => exact (ih l j).2 hjr stk hstk
          | some stk2 =>
              refine (ih _ j).2 hjr stk ?_
              rw [List.getElem?_set_ne (fun h => hji h.symm)]
              exact hstk

lemma mem_roEntries_idx_iff (labFn : RGB → Lab) (s : List Sticker) (j : ℕ) :
    j ∈ (roEntries labFn s).map ROEntry.idx
      ↔ ∃ stk, s[j]? = some stk ∧ (stk.color = Color.R ∨ stk.color = Color.O) := by
  unfold roEntries
  rw [List.mem_map]
  constructor
  · rintro ⟨e, he, rfl⟩
    obtain ⟨p, hp, hfp⟩ := List.mem_filterMap.mp he
    by_cases hpred : p.2.color = Color.R ∨ p.2.color = Color.O
    · rw [if_pos hpred] at hfp
      cases hfp
      refine ⟨p.2, ?_, hpred⟩
      have := List.mk_mem_enum_iff_getElem?.mp (show (p.1, p.2) ∈ s.enum from hp)
      simpa using this
    · rw [if_neg hpred] at hfp
      cases hfp
  · rintro ⟨stk, hstk, hpred⟩
    refine ⟨{ idx := j, bLab := (labFn stk.rgb).2.2, aLab := (labFn stk.rgb).2.1,
              lLab := (labFn stk.rgb).1 }, ?_, rfl⟩
    apply List.mem_filterMap.mpr
    refine ⟨(j, stk), List.mk_mem_enum_iff_getElem?.mpr hstk, ?_⟩
    rw [if_pos hpred]

lemma mem_roSorted_idx_iff (labFn : RGB → Lab) (s : List Sticker) (j : ℕ) :
    j ∈ (roSorted labFn s).map ROEntry.idx
      ↔ ∃ stk, s[j]? = some stk ∧ (stk.color = Color.R ∨ stk.color = Color.O) := by
  rw [← mem_roEntries_idx_iff labFn s j]
  unfold roSorted
  exact ((List.perm_insertionSort roLE (roEntries labFn s)).map ROEntry.idx).mem_iff

lemma filterMap_idx_sublist (labFn : RGB → Lab) :
    ∀ l : List (ℕ × Sticker),
      ((l.filterMap (fun p =>
        if p.2.color = Color.R ∨ p.2.color = Color.O then
          some { idx := p.1, bLab := (labFn p.2.rgb).2.2, aLab := (labFn p.2.rgb).2.1,
                 lLab := (labFn p.2.rgb).1 : ROEntry }
        else none)).map ROEntry.idx).Sublist (l.map Prod.fst) := by
  intro l
  induction l with
  | nil => simp
  | cons p rest ih =>
      by_cases hpred : p.2.color = Color.R ∨ p.2.color = Color.O
      · simp only [List.filterMap_cons, if_pos hpred, List.map_cons]
        exact ih.cons₂ p.1
      · simp only [List.filterMap_cons, if_neg hpred, List.map_cons]
        exact ih.cons p.1

lemma roSorted_idx_nodup (labFn : RGB → Lab) (s : List Sticker) :
    ((roSorted labFn s).map ROEntry.idx).Nodup := by
  have hsub := filterMap_idx_sublist labFn s.enum
  rw [List.enum_map_fst] at hsub
  have hnodup : ((roEntries labFn s).map ROEntry.idx).Nodup :=
    hsub.nodup (List.nodup_range s.length)
  exact (((List.perm_insertionSort roLE (roEntries labFn s)).map ROEntry.idx).nodup_iff).mpr
    hnodup

lemma bestGapScan_achieved (l : List ℚ) :
    (bestGapScan l).1 ≤ 0 ∨ (gapsOf l)[(bestGapScan l).2]? = some (bestGapScan l).1 := by
  have key : ∀ (es : List (ℕ × ℚ)), (∀ p ∈ es, (gapsOf l)[p.1]? = some p.2) →
      ∀ acc : ℚ × ℕ, (acc.1 ≤ 0 ∨ (gapsOf l)[acc.2]? = some acc.1) →
      ((es.foldl (fun best p => if best.1 < p.2 then (p.2, p.1) else best) acc).1 ≤ 0
        ∨ (gapsOf l)[(es.foldl (fun best p => if best.1 < p.2 then (p.2, p.1) else best)
            acc).2]?
            = some (es.foldl (fun best p => if best.1 < p.2 then (p.2, p.1) else best) acc).1) := by
    intro es
    induction es with
    | nil => intro _ acc hacc; exact hacc
    | cons p rest ih =>
        intro hmem acc hacc
        simp only [List.foldl_cons]
        by_cases hlt : acc.1 < p.2
        · rw [if_pos hlt]
          exact ih (fun q hq => hmem q (List.mem_cons_of_mem p hq)) (p.2, p.1)
            (Or.inr (hmem p (List.mem_cons_self p rest)))
        · rw [if_neg hlt]
          exact ih (fun q hq => hmem q (List.mem_cons_of_mem p hq)) acc hacc
  exact key (gapsOf l).enum
    (fun p hp => List.mem_enum_iff_getElem?.mp hp)
    (0, 0) (Or.inl (le_refl 0))

lemma gapsOf_getElem (l : List ℚ) (i : ℕ) (g : ℚ) (h : (gapsOf l)[i]? = some g) :
    i + 1 < l.length
      ∧ ∃ bi bi1, l[i]? = some bi ∧ l[i + 1]? = some bi1 ∧ g = bi1 - bi := by
  unfold gapsOf at h
  have hi : i < ((l.zip l.tail).map (fun p => p.2 - p.1)).length :=
    (List.getElem?_eq_some_iff.mp h).1
  simp only [List.length_map, List.length_zip, List.length_tail] at hi
  have hlen : i + 1 < l.length := by omega
  have hi2 : i < l.length := by omega
  have hit : i < l.tail.length := by rw [List.length_tail]; omega
  refine ⟨hlen, l.get ⟨i, hi2⟩, l.tail.get ⟨i, hit⟩, ?_, ?_, ?_⟩
  · rw [List.getElem?_eq_getElem hi2]
    rfl
  · rw [List.getElem?_eq_getElem hlen, List.get_tail l i hit hlen]
    rfl
  · have hzip : (l.zip l.tail)[i]? = some (l.get ⟨i, hi2⟩, l.tail.get ⟨i, hit⟩) := by
      rw [List.getElem?_zip_eq_some]
      constructor
      · rw [List.getElem?_eq_getElem hi2]; rfl
      · rw [List.getElem?_eq_getElem hit]; rfl
    rw [List.getElem?_map, hzip] at h
    simp only [Option.map_some'] at h
    cases h
    rfl

/-- Stickers not currently assigned Red or Orange are never modified by
`resolveRedOrange`, whatever the Lab conversion. -/
lemma resolveRedOrange_untouched (labFn : RGB → Lab) (s : List Sticker) (j : ℕ)
    (stk : Sticker) (hstk : s[j]? = some stk)
    (hro : ¬ (stk.color = Color.R ∨ stk.color = Color.O)) :
    (resolveRedOrange labFn s)[j]? = some stk := by
  have hnot : j ∉ (roSorted labFn s).map ROEntry.idx := by
    intro hmem
    obtain ⟨stk2, hstk2, hro2⟩ := (mem_roSorted_idx_iff labFn s j).mp hmem
    rw [hstk] at hstk2
    cases hstk2
    exact hro hro2
  have hnotTake : ∀ n, j ∉ ((roSorted labFn s).take n).map ROEntry.idx := by
    intro n hmem
    obtain ⟨e, he, rfl⟩ := List.mem_map.mp hmem
    exact hnot (List.mem_map.mpr ⟨e, List.mem_of_mem_take he, rfl⟩)
  have hnotDrop : ∀ n, j ∉ ((roSorted labFn s).drop n).map ROEntry.idx := by
    intro n hmem
    obtain ⟨e, he, rfl⟩ := List.mem_map.mp hmem
    exact hnot (List.mem_map.mpr ⟨e, List.mem_of_mem_drop he, rfl⟩)
  unfold resolveRedOrange
  by_cases h1 : (roEntries labFn s).length ≤ 1
  · rw [if_pos h1]
    exact hstk
  · rw [if_neg h1]
    by_cases hsp : roSpread labFn s < 12
    · rw [if_pos hsp]
      rw [(assignColor_getElem _ _ _ j).1 hnot]
      exact hstk
    · rw [if_neg hsp]
      by_cases hg : 6 < (bestGapScan ((roSorted labFn s).map ROEntry.bLab)).1
      · rw [if_pos hg]
        rw [(assignColor_getElem _ _ _ j).1 (hnotDrop _),
            (assignColor_getElem _ _ _ j).1 (hnotTake _)]
        exact hstk
      · rw [if_neg hg]
        rw [(assignColor_getElem _ _ _ j).1 hnot]
        exact hstk

/-- With at least two R/O stickers and a b-value spread below 12, every
R/O sticker is repainted to the single color of the average rule
(`Orange` iff avgB > 40 and avgA < 50, else `Red`), keeping its sample. -/
lemma resolveRedOrange_smallSpread (labFn : RGB → Lab) (s : List Sticker)
    (h2 : ¬ (roEntries labFn s).length ≤ 1) (hsp : roSpread labFn s < 12)
    (j : ℕ) (stk : Sticker) (hstk : s[j]? = some stk)
    (hro : stk.color = Color.R ∨ stk.color = Color.O) :
    (resolveRedOrange labFn s)[j]?
      = some { stk with color := roColorSmall (roSorted labFn s) } := by
  have hmem : j ∈ (roSorted labFn s).map ROEntry.idx :=
    (mem_roSorted_idx_iff labFn s j).mpr ⟨stk, hstk, hro⟩
  unfold resolveRedOrange
  rw [if_neg h2, if_pos hsp]
  exact (assignColor_getElem _ _ _ j).2 hmem stk hstk

/-- With spread ≥ 12 and a largest consecutive b-gap exceeding 6, the R/O
subset is split at that gap: stickers whose b-value is at most the gap's
low endpoint become Red, those at or above the high endpoint become
Orange, and the two endpoints differ by more than 6. -/
lemma resolveRedOrange_gapSplit (labFn : RGB → Lab) (s : List Sticker)
    (h2 : ¬ (roEntries labFn s).length ≤ 1)
    (hsp : ¬ roSpread labFn s < 12)
    (hgap : 6 < (bestGapScan ((roSorted labFn s).map ROEntry.bLab)).1) :
    ∃ bsplit bnext : ℚ, 6 < bnext - bsplit
      ∧ ∀ (j : ℕ) (stk : Sticker), s[j]? = some stk
          → (stk.color = Color.R ∨ stk.color = Color.O) →
          (((labFn stk.rgb).2.2 ≤ bsplit ∧
              (resolveRedOrange labFn s)[j]? = some { stk with color := Color.R })
           ∨ (bnext ≤ (labFn stk.rgb).2.2 ∧
              (resolveRedOrange labFn s)[j]? = some { stk with color := Color.O })) := by
  have hres : resolveRedOrange labFn s =
      assignColor
        (((roSorted labFn s).drop
            ((bestGapScan ((roSorted labFn s).map ROEntry.bLab)).2 + 1)).map ROEntry.idx)
        Color.O
        (assignColor
          (((roSorted labFn s).take
              ((bestGapScan ((roSorted labFn s).map ROEntry.bLab)).2 + 1)).map ROEntry.idx)
          Color.R s) := by
    unfold resolveRedOrange
    rw [if_neg h2, if_neg hsp, if_pos hgap]
  have hsort : List.Sorted roLE (roSorted labFn s) :=
    List.sorted_insertionSort roLE (roEntries labFn s)
  have hnodup := roSorted_idx_nodup labFn s
  rcases bestGapScan_achieved ((roSorted labFn s).map ROEntry.bLab) with hle | hach
  · exact absurd hgap (not_lt.mpr (le_trans hle (by norm_num)))
  obtain ⟨hgi1, bi, bi1, hbi, hbi1, hgeq⟩ :=
    gapsOf_getElem ((roSorted labFn s).map ROEntry.bLab)
      (bestGapScan ((roSorted labFn s).map ROEntry.bLab)).2
      (bestGapScan ((roSorted labFn s).map ROEntry.bLab)).1 hach
  set gi := (bestGapScan ((roSorted labFn s).map ROEntry.bLab)).2 with hgidef
  have hlenbv : ((roSorted labFn s).map ROEntry.bLab).length = (roSorted labFn s).length :=
    List.length_map _ _
  have hgi1s : gi + 1 < (roSorted labFn s).length := by rw [← hlenbv]; exact hgi1
  have hgis : gi < (roSorted labFn s).length := by omega
  have hbiv : bi = ((roSorted labFn s).get ⟨gi, hgis⟩).bLab := by
    have := List.getElem?_eq_getElem (l := (roSorted labFn s).map ROEntry.bLab) hgi1 ▸ hbi1
    have h2' : ((roSorted labFn s).map ROEntry.bLab)[gi]? = some bi := hbi
    rw [List.getElem?_eq_getElem (by rw [hlenbv]; omega)] at h2'
    cases h2'
    simp [List.getElem_map]
  have hbi1v : bi1 = ((roSorted labFn s).get ⟨gi + 1, hgi1s⟩).bLab := by
    have h2' : ((roSorted labFn s).map ROEntry.bLab)[gi + 1]? = some bi1 := hbi1
    rw [List.getElem?_eq_getElem hgi1] at h2'
    cases h2'
    simp [List.getElem_map]
  refine ⟨bi, bi1, by rw [hgeq] at hgap; exact hgap, ?_⟩
  intro j stk hstk hro
  have hdisj : ∀ jx, jx ∈ (((roSorted labFn s).take (gi + 1)).map ROEntry.idx) →
      jx ∉ (((roSorted labFn s).drop (gi + 1)).map ROEntry.idx) := by
    have happ : (((roSorted labFn s).take (gi + 1)).map ROEntry.idx)
        ++ (((roSorted labFn s).drop (gi + 1)).map ROEntry.idx)
        = (roSorted labFn s).map ROEntry.idx := by
      rw [← List.map_append, List.take_append_drop]
    intro jx hjt hjd
    have : ¬ ((((roSorted labFn s).take (gi + 1)).map ROEntry.idx)
        ++ (((roSorted labFn s).drop (gi + 1)).map ROEntry.idx)).Nodup := by
      intro hn
      exact (List.disjoint_of_nodup_append hn) hjt hjd
    rw [happ] at this
    exact this hnodup
  -- the entry recorded for sticker j
  have hmem : ({ idx := j, bLab := (labFn stk.rgb).2.2, aLab := (labFn stk.rgb).2.1,
                 lLab := (labFn stk.rgb).1 } : ROEntry) ∈ roEntries labFn s := by
    apply List.mem_filterMap.mpr
    refine ⟨(j, stk), List.mk_mem_enum_iff_getElem?.mpr hstk, ?_⟩
    rw [if_pos hro]
  have hes : ({ idx := j, bLab := (labFn stk.rgb).2.2, aLab := (labFn stk.rgb).2.1,
                lLab := (labFn stk.rgb).1 } : ROEntry) ∈ roSorted labFn s :=
    ((List.perm_insertionSort roLE (roEntries labFn s)).mem_iff).mpr hmem
  obtain ⟨⟨k, hk⟩, hek⟩ := List.mem_iff_get.mp hes
  rcases le_or_lt k gi with hkgi | hkgi
  · -- low side: position ≤ gi, b-value ≤ bi, painted Red
    left
    have hble : (labFn stk.rgb).2.2 ≤ bi := by
      rw [hbiv]
      have := hsort.rel_get_of_le (a := ⟨k, hk⟩) (b := ⟨gi, hgis⟩)
        (Fin.mk_le_mk.mpr hkgi)
      rw [hek] at this
      exact this
    have hjtake : j ∈ (((roSorted labFn s).take (gi + 1)).map ROEntry.idx) := by
      apply List.mem_map.mpr
      have hkt : k < ((roSorted labFn s).take (gi + 1)).length := by
        rw [List.length_take]
        omega
      refine ⟨((roSorted labFn s).take (gi + 1)).get ⟨k, hkt⟩, List.get_mem _ _ hkt, ?_⟩
      have : ((roSorted labFn s).take (gi + 1)).get ⟨k, hkt⟩
          = (roSorted labFn s).get ⟨k, hk⟩ := by
        simp [List.get_eq_getElem, List.getElem_take]
      rw [this, hek]
    refine ⟨hble, ?_⟩
    rw [hres]
    rw [(assignColor_getElem _ _ _ j).1 (fun hmemd => hdisj j hjtake hmemd)]
    exact (assignColor_getElem _ _ _ j).2 hjtake stk hstk
  · -- high side: position ≥ gi + 1, b-value ≥ bi1, painted Orange
    right
    have hble : bi1 ≤ (labFn stk.rgb).2.2 := by
      rw [hbi1v]
      have := hsort.rel_get_of_le (a := ⟨gi + 1, hgi1s⟩) (b := ⟨k, hk⟩)
        (Fin.mk_le_mk.mpr (by omega))
      rw [hek] at this
      exact this
    have hjdrop : j ∈ (((roSorted labFn s).drop (gi + 1)).map ROEntry.idx) := by
      apply List.mem_map.mpr
      have hkd : k - (gi + 1) < ((roSorted labFn s).drop (gi + 1)).length := by
        rw [List.length_drop]
        omega
      refine ⟨((roSorted labFn s).drop (gi + 1)).get ⟨k - (gi + 1), hkd⟩,
        List.get_mem _ _ hkd, ?_⟩
      have : ((roSorted labFn s).drop (gi + 1)).get ⟨k - (gi + 1), hkd⟩
          = (roSorted labFn s).get ⟨k, hk⟩ := by
        simp only [List.get_eq_getElem, List.getElem_drop]
        congr 1
        omega
      rw [this, hek]
    have hjnotTake : j ∉ (((roSorted labFn s).take (gi + 1)).map ROEntry.idx) :=
      fun hjt => hdisj j hjt hjdrop
    refine ⟨hble, ?_⟩
    rw [hres]
    have hinner : (assignColor
        (((roSorted labFn s).take (gi + 1)).map ROEntry.idx) Color.R s)[j]? = some stk := by
      rw [(assignColor_getElem _ _ _ j).1 hjnotTake]
      exact hstk
    exact (assignColor_getElem _ _ _ j).2 hjdrop stk hinner

/-- C2 (amended).  The live face-level refinement handles only the
(Red, Orange) pair, scoring by Lab b-value (not by reference-distance
differences): (i) stickers not assigned Red or Orange — in particular any
White/Yellow subset — are never modified; (ii) with at least two R/O
stickers and a b-spread below 12, all of them are pushed to the single
color of the average rule (Orange iff avgB > 40 and avgA < 50, else Red);
(iii) with spread ≥ 12 and a largest consecutive sorted b-gap above 6, the
subset is split at that gap, the low side assigned Red and the high side
Orange.  All three clauses hold for every Lab conversion `labFn`. -/
theorem resolveRedOrange_refinement :
    (∀ (labFn : RGB → Lab) (s : List Sticker) (j : ℕ) (stk : Sticker),
        s[j]? = some stk → ¬ (stk.color = Color.R ∨ stk.color = Color.O) →
        (resolveRedOrange labFn s)[j]? = some stk)
      ∧ (∀ (labFn : RGB → Lab) (s : List Sticker),
          ¬ (roEntries labFn s).length ≤ 1 → roSpread labFn s < 12 →
          ∀ (j : ℕ) (stk : Sticker), s[j]? = some stk →
            (stk.color = Color.R ∨ stk.color = Color.O) →
            (resolveRedOrange labFn s)[j]?
              = some { stk with color := roColorSmall (roSorted labFn s) })
      ∧ (∀ (labFn : RGB → Lab) (s : List Sticker),
          ¬ (roEntries labFn s).length ≤ 1 → ¬ roSpread labFn s < 12 →
          6 < (bestGapScan ((roSorted labFn s).map ROEntry.bLab)).1 →
          ∃ bsplit bnext : ℚ, 6 < bnext - bsplit
            ∧ ∀ (j : ℕ) (stk : Sticker), s[j]? = some stk
                → (stk.color = Color.R ∨ stk.color = Color.O) →
                (((labFn stk.rgb).2.2 ≤ bsplit ∧
                    (resolveRedOrange labFn s)[j]? = some { stk with color := Color.R })
                 ∨ (bnext ≤ (labFn stk.rgb).2.2 ∧
                    (resolveRedOrange labFn s)[j]?
                      = some { stk with color := Color.O }))) :=
  ⟨resolveRedOrange_untouched, resolveRedOrange_smallSpread, resolveRedOrange_gapSplit⟩

/-- A stand-in Lab conversion for closed evaluation: the counterexample
below never converts any sticker (it has no R/O stickers), and clause (i)
of the amended theorem shows the result is the same for every `labFn`. -/
def labZero : RGB → Lab := fun _ => (0, 0, 0)

/-- A 9-sticker face whose first two stickers carry identical samples but
are assigned White and Yellow. -/
def exC2 : List Sticker :=
  [mkSticker .W, mkSticker .Y, mkSticker .G, mkSticker .G, mkSticker .G,
   mkSticker .G, mkSticker .G, mkSticker .G, mkSticker .G]

/-- C2 counterexample.  Stickers 0 and 1 of `exC2` carry identical
samples (equal rgb and hsv, hence equal distances and equal preference
scores under any metric) and are assigned White and Yellow; the claim's
(White, Yellow) refinement would give them one common color, yet the
face-level pass returns the face unchanged — it never examines the
(White, Yellow) or (Orange, Yellow) pairs. -/
theorem resolveRedOrange_pair_cex :
    resolveRedOrange labZero exC2 = exC2
      ∧ (exC2.getD 0 default).color = Color.W
      ∧ (exC2.getD 1 default).color = Color.Y
      ∧ (exC2.getD 0 default).rgb = (exC2.getD 1 default).rgb
      ∧ (exC2.getD 0 default).hsv = (exC2.getD 1 default).hsv := by
  refine ⟨?_, by decide, by decide, by decide, by decide⟩
  decide

/-! ## Face-detector geometry (faceDetector.ts).  The OpenCV calls
(Canny, findContours, approxPolyDP, contourArea, moments, convexity) are
opaque native operations; the embedding takes their per-contour outputs as
input data and models everything from there on.  Square roots again appear
only in monotone comparisons and are embedded by squares. -/

/-- A frame-pixel point. -/
structure Pt where
  x : ℚ
  y : ℚ
deriving DecidableEq, Repr, Inhabited

/-- The `(a.x + a.y) - (b.x + b.y)` comparator of `orderCorners`. -/
def sumLE : Pt → Pt → Prop := fun a b => a.x + a.y ≤ b.x + b.y

instance : DecidableRel sumLE := fun a b => inferInstanceAs (Decidable (a.x + a.y ≤ b.x + b.y))

instance : IsTotal Pt sumLE := ⟨fun a b => le_total (a.x + a.y) (b.x + b.y)⟩

instance : IsTrans Pt sumLE := ⟨fun _ _ _ => le_trans⟩

instance : IsRefl Pt sumLE := ⟨fun a => le_refl (a.x + a.y)⟩

/-- The `(a.x - a.y) - (b.x - b.y)` comparator of `orderCorners`. -/
def diffLE : Pt → Pt → Prop := fun a b => a.x - a.y ≤ b.x - b.y

instance : DecidableRel diffLE := fun a b => inferInstanceAs (Decidable (a.x - a.y ≤ b.x - b.y))

/-- First stage of `orderCorners`: the corners sorted by `x + y`. -/
def ocSorted (corners : List Pt) : List Pt := List.insertionSort sumLE corners

/-- Second stage: elements 1 and 2 of the sum-sorted list, sorted by
`x - y` (`remaining.sort`). -/
def ocRem (corners : List Pt) : List Pt :=
  List.insertionSort diffLE [(ocSorted corners).getD 1 default, (ocSorted corners).getD 2 default]

/-- `orderCorners` of faceDetector.ts (lines 611-623):
`[topLeft, topRight, bottomRight, bottomLeft]` — minimal `x+y` first,
maximal `x+y` third, and the remaining two split by `x-y`
(`bottomLeft = remaining[0]`, `topRight = remaining[1]`). -/
def orderCorners (corners : List Pt) : List Pt :=
  [(ocSorted corners).getD 0 default, (ocRem corners).getD 1 default,
   (ocSorted corners).getD 3 default, (ocRem corners).getD 0 default]

/-- Squared distance between two points (`dist` returns the square
root; only compared). -/
def distSq (a b : Pt) : ℚ := (a.x - b.x)^2 + (a.y - b.y)^2

/-- `isRoughlySquare(corners, threshold)` with the threshold squared:
`minSide/maxSide > threshold  ↔  threshold² · maxSide² < minSide²`
(both sides nonnegative; a zero max side fails both forms). -/
def isRoughlySquareSq (corners : List Pt) (tSq : ℚ) : Bool :=
  decide (tSq * max (max (max
        (distSq ((orderCorners corners).getD 0 default) ((orderCorners corners).getD 1 default))
        (distSq ((orderCorners corners).getD 1 default) ((orderCorners corners).getD 2 default)))
        (distSq ((orderCorners corners).getD 2 default) ((orderCorners corners).getD 3 default)))
        (distSq ((orderCorners corners).getD 3 default) ((orderCorners corners).getD 0 default))
    < min (min (min
        (distSq ((orderCorners corners).getD 0 default) ((orderCorners corners).getD 1 default))
        (distSq ((orderCorners corners).getD 1 default) ((orderCorners corners).getD 2 default)))
        (distSq ((orderCorners corners).getD 2 default) ((orderCorners corners).getD 3 default)))
        (distSq ((orderCorners corners).getD 3 default) ((orderCorners corners).getD 0 default)))

/-- The shoelace sum of `quadArea` (pairing each corner with its cyclic
successor). -/
def shoelace (c : List Pt) : ℚ :=
  ((c.zip (c.rotate 1)).map (fun p => p.1.x * p.2.y - p.2.x * p.1.y)).sum

/-- `quadArea` of faceDetector.ts: half the absolute shoelace sum. -/
def quadArea (c : List Pt) : ℚ := |shoelace c| / 2

/-- `isPointInsideQuad`: all four cross products of the canonically
ordered quad are nonnegative. -/
def isPointInsideQuad (px py : ℚ) (quad : List Pt) : Bool :=
  (List.range 4).all (fun i =>
    decide (0 ≤ (((orderCorners quad).getD ((i + 1) % 4) default).x
          - ((orderCorners quad).getD i default).x)
        * (py - ((orderCorners quad).getD i default).y)
      - (((orderCorners quad).getD ((i + 1) % 4) default).y
          - ((orderCorners quad).getD i default).y)
        * (px - ((orderCorners quad).getD i default).x)))

lemma insertionSort_pair (a b : Pt) :
    List.insertionSort diffLE [a, b] = if a.x - a.y ≤ b.x - b.y then [a, b] else [b, a] := by
  by_cases h : a.x - a.y ≤ b.x - b.y
  · simp [List.insertionSort, List.orderedInsert, diffLE, h]
  · simp [List.insertionSort, List.orderedInsert, diffLE, h]

/-- `orderCorners` on a 4-point list: the output is a permutation of the
input, its first element has minimal coordinate sum, its third maximal
coordinate sum, and its fourth has a smaller-or-equal `x - y` than its
second. -/
lemma orderCorners_spec (c0 c1 c2 c3 : Pt) :
    (orderCorners [c0, c1, c2, c3]).Perm [c0, c1, c2, c3]
      ∧ (∀ p ∈ orderCorners [c0, c1, c2, c3],
          ((orderCorners [c0, c1, c2, c3]).getD 0 default).x
              + ((orderCorners [c0, c1, c2, c3]).getD 0 default).y ≤ p.x + p.y
          ∧ p.x + p.y ≤ ((orderCorners [c0, c1, c2, c3]).getD 2 default).x
              + ((orderCorners [c0, c1, c2, c3]).getD 2 default).y)
      ∧ ((orderCorners [c0, c1, c2, c3]).getD 3 default).x
          - ((orderCorners [c0, c1, c2, c3]).getD 3 default).y
          ≤ ((orderCorners [c0, c1, c2, c3]).getD 1 default).x
              - ((orderCorners [c0, c1, c2, c3]).getD 1 default).y := by
  have hperm : (ocSorted [c0, c1, c2, c3]).Perm [c0, c1, c2, c3] :=
    List.perm_insertionSort sumLE _
  have hsort : List.Sorted sumLE (ocSorted [c0, c1, c2, c3]) :=
    List.sorted_insertionSort sumLE _
  have hlen : (ocSorted [c0, c1, c2, c3]).length = 4 := by
    rw [hperm.length_eq]
    rfl
  obtain ⟨a, s1⟩ : ∃ a s1, ocSorted [c0, c1, c2, c3] = a :: s1 := by
    cases h : ocSorted [c0, c1, c2, c3] with
    | nil => rw [h] at hlen; cases hlen
    | cons a s1 => exact ⟨a, s1, rfl⟩
  obtain ⟨s1, hs⟩ := s1
  obtain ⟨b, s2⟩ : ∃ b s2, s1 = b :: s2 := by
    cases h : s1 with
    | nil => rw [hs, h] at hlen; cases hlen
    | cons b s2 => exact ⟨b, s2, rfl⟩
  obtain ⟨s2, hs1⟩ := s2
  obtain ⟨c, s3⟩ : ∃ c s3, s2 = c :: s3 := by
    cases h : s2 with
    | nil => rw [hs, hs1, h] at hlen; cases hlen
    | cons c s3 => exact ⟨c, s3, rfl⟩
  obtain ⟨s3, hs2⟩ := s3
  obtain ⟨d, s4⟩ : ∃ d s4, s3 = d :: s4 := by
    cases h : s3 with
    | nil => rw [hs, hs1, hs2, h] at hlen; cases hlen
    | cons d s4 => exact ⟨d, s4, rfl⟩
  obtain ⟨s4, hs3⟩ := s4
  have hs4 : s4 = [] := by
    rw [hs, hs1, hs2, hs3] at hlen
    simpa using hlen
  have hfour : ocSorted [c0, c1, c2, c3] = [a, b, c, d] := by
    rw [hs, hs1, hs2, hs3, hs4]
  have hperm4 : List.Perm [a, b, c, d] [c0, c1, c2, c3] := hfour ▸ hperm
  have hsort4 : List.Sorted sumLE [a, b, c, d] := hfour ▸ hsort
  have hab : sumLE a b := (List.sorted_cons.mp hsort4).1 b (by simp)
  have hac : sumLE a c := (List.sorted_cons.mp hsort4).1 c (by simp)
  have had : sumLE a d := (List.sorted_cons.mp hsort4).1 d (by simp)
  have hbd : sumLE b d :=
    (List.sorted_cons.mp (List.sorted_cons.mp hsort4).2).1 d (by simp)
  have hcd : sumLE c d :=
    (List.sorted_cons.mp (List.sorted_cons.mp (List.sorted_cons.mp hsort4).2).2).1 d (by simp)
  have hrem : ocRem [c0, c1, c2, c3] = if b.x - b.y ≤ c.x - c.y then [b, c] else [c, b] := by
    unfold ocRem
    rw [hfour]
    exact insertionSort_pair b c
  have horder : orderCorners [c0, c1, c2, c3]
      = [a, (ocRem [c0, c1, c2, c3]).getD 1 default, d, (ocRem [c0, c1, c2, c3]).getD 0 default] := by
    unfold orderCorners
    rw [hfour]
    rfl
  by_cases hbc : b.x - b.y ≤ c.x - c.y
  · rw [if_pos hbc] at hrem
    rw [horder, hrem]
    simp only [List.getD_cons_succ, List.getD_cons_zero]
    refine ⟨?_, ?_, hbc⟩
    · exact (List.Perm.cons a ((List.Perm.cons c (List.Perm.swap b d [])).trans
        (List.Perm.swap b c [d]))).trans hperm4
    · intro p hp
      simp only [List.mem_cons, List.not_mem_nil, or_false] at hp
      rcases hp with rfl | rfl | rfl | rfl
      · exact ⟨le_refl _, had⟩
      · exact ⟨hac, hcd⟩
      · exact ⟨had, le_refl _⟩
      · exact ⟨hab, hbd⟩
  · rw [if_neg hbc] at hrem
    rw [horder, hrem]
    simp only [List.getD_cons_succ, List.getD_cons_zero]
    refine ⟨?_, ?_, le_of_not_le hbc⟩
    · exact (List.Perm.cons a (List.Perm.cons b (List.Perm.swap c d []))).trans hperm4
    · intro p hp
      simp only [List.mem_cons, List.not_mem_nil, or_false] at hp
      rcases hp with rfl | rfl | rfl | rfl
      · exact ⟨le_refl _, had⟩
      · exact ⟨hab, hbd⟩
      · exact ⟨had, le_refl _⟩
      · exact ⟨hac, hcd⟩

/-- One sticker-square candidate of the edge strategy (`SquareInfo`). -/
structure SquareInfo where
  cx : ℚ
  cy : ℚ
  area : ℚ
  contourIdx : ℕ
deriving DecidableEq, Repr, Inhabited

/-- The `(a, b) => a.cy - b.cy || a.cx - b.cx` comparator of
`checkGridPattern` (row-major: by cy, ties by cx). -/
def cgLE : SquareInfo → SquareInfo → Prop :=
  fun a b => a.cy < b.cy ∨ (a.cy = b.cy ∧ a.cx ≤ b.cx)

instance : DecidableRel cgLE :=
  fun a b => inferInstanceAs (Decidable (a.cy < b.cy ∨ (a.cy = b.cy ∧ a.cx ≤ b.cx)))

/-- `Math.min(...)` over a nonempty list (fold of `min` seeded with the
first element). -/
def listMinQ (l : List ℚ) : ℚ := l.foldl min l.headI

/-- `Math.max(...)` over a nonempty list. -/
def listMaxQ (l : List ℚ) : ℚ := l.foldl max l.headI

lemma foldl_min_le (l : List ℚ) : ∀ a : ℚ, l.foldl min a ≤ a := by
  induction l with
  | nil => intro a; exact le_refl a
  | cons h t ih =>
      intro a
      exact le_trans (ih (min a h)) (min_le_left a h)

lemma le_foldl_max (l : List ℚ) : ∀ a : ℚ, a ≤ l.foldl max a := by
  induction l with
  | nil => intro a; exact le_refl a
  | cons h t ih =>
      intro a
      exact le_trans (le_max_left a h) (ih (max a h))

lemma listMinQ_le_listMaxQ (l : List ℚ) : listMinQ l ≤ listMaxQ l :=
  le_trans (foldl_min_le l l.headI) (le_foldl_max l l.headI)

/-- `Math.round` — half-up rounding toward +∞. -/
def jsRound (q : ℚ) : ℤ := ⌊q + 1/2⌋

/-- The 3×3 occupancy-assignment loop of `checkGridPattern`: bins each
square into (row, col) via rounding; counts cells filled first. -/
def gridAssign (xMin yMin cw ch : ℚ) :
    List SquareInfo → List (ℤ × ℤ) → ℕ → ℕ
  | [], _, assigned => assigned
  | sq :: rest, occupied, assigned =>
      if 0 ≤ jsRound ((sq.cy - yMin) / (if ch = 0 then 1 else ch))
          ∧ jsRound ((sq.cy - yMin) / (if ch = 0 then 1 else ch)) ≤ 2
          ∧ 0 ≤ jsRound ((sq.cx - xMin) / (if cw = 0 then 1 else cw))
          ∧ jsRound ((sq.cx - xMin) / (if cw = 0 then 1 else cw)) ≤ 2
          ∧ (jsRound ((sq.cy - yMin) / (if ch = 0 then 1 else ch)),
             jsRound ((sq.cx - xMin) / (if cw = 0 then 1 else cw))) ∉ occupied
      then gridAssign xMin yMin cw ch rest
            ((jsRound ((sq.cy - yMin) / (if ch = 0 then 1 else ch)),
              jsRound ((sq.cx - xMin) / (if cw = 0 then 1 else cw))) :: occupied)
            (assigned + 1)
      else gridAssign xMin yMin cw ch rest occupied assigned

/-- The cluster sorted row-major. -/
def cgpSorted (cluster : List SquareInfo) : List SquareInfo :=
  List.insertionSort cgLE cluster

/-- `Math.min(...xCoords)` etc. of `checkGridPattern`. -/
def cgpXMin (cluster : List SquareInfo) : ℚ := listMinQ ((cgpSorted cluster).map SquareInfo.cx)

def cgpXMax (cluster : List SquareInfo) : ℚ := listMaxQ ((cgpSorted cluster).map SquareInfo.cx)

def cgpYMin (cluster : List SquareInfo) : ℚ := listMinQ ((cgpSorted cluster).map SquareInfo.cy)

def cgpYMax (cluster : List SquareInfo) : ℚ := listMaxQ ((cgpSorted cluster).map SquareInfo.cy)

def cgpXSpan (cluster : List SquareInfo) : ℚ := cgpXMax cluster - cgpXMin cluster

def cgpYSpan (cluster : List SquareInfo) : ℚ := cgpYMax cluster - cgpYMin cluster

/-- `margin = cellW * 0.85` (the x cell width is used for both axes, as in
the source). -/
def cgpMargin (cluster : List SquareInfo) : ℚ := cgpXSpan cluster / 2 * (85/100)

/-- `checkGridPattern` of faceDetector.ts (lines 546-595).  (On an empty
cluster the source reaches `assigned 0 < 7` and returns null via NaN-false
comparisons; the embedding returns `none` directly.) -/
def checkGridPattern (cluster : List SquareInfo) : Option (List Pt) :=
  if cluster.isEmpty then none
  else if cgpXSpan cluster = 0 ∨ cgpYSpan cluster = 0 then none
  else if min (cgpXSpan cluster) (cgpYSpan cluster)
      / max (cgpXSpan cluster) (cgpYSpan cluster) < 45/100 then none
  else if gridAssign (cgpXMin cluster) (cgpYMin cluster)
      (cgpXSpan cluster / 2) (cgpYSpan cluster / 2) (cgpSorted cluster) [] 0 < 7 then none
  else some
    [⟨cgpXMin cluster - cgpMargin cluster, cgpYMin cluster - cgpMargin cluster⟩,
     ⟨cgpXMax cluster + cgpMargin cluster, cgpYMin cluster - cgpMargin cluster⟩,
     ⟨cgpXMax cluster + cgpMargin cluster, cgpYMax cluster + cgpMargin cluster⟩,
     ⟨cgpXMin cluster - cgpMargin cluster, cgpYMax cluster + cgpMargin cluster⟩]

lemma rect_margin_ordered (a b c d m : ℚ) (hab : a < b) (hcd : c < d) (hm : 0 < m) :
    ((a - m) + (c - m) < (b + m) + (c - m))
      ∧ ((a - m) + (c - m) < (a - m) + (d + m))
      ∧ ((b + m) + (c - m) < (b + m) + (d + m))
      ∧ ((a - m) + (d + m) < (b + m) + (d + m))
      ∧ ((a - m) - (d + m) < (b + m) - (c - m))
      ∧ 0 < quadArea [⟨a - m, c - m⟩, ⟨b + m, c - m⟩, ⟨b + m, d + m⟩, ⟨a - m, d + m⟩] := by
  refine ⟨by linarith, by linarith, by linarith, by linarith, by linarith, ?_⟩
  have hS : shoelace [⟨a - m, c - m⟩, ⟨b + m, c - m⟩, ⟨b + m, d + m⟩, ⟨a - m, d + m⟩]
      = (((b - a) + 2*m) * ((d - c) + 2*m)) * 2 := by
    show ((([⟨a - m, c - m⟩, ⟨b + m, c - m⟩, ⟨b + m, d + m⟩, ⟨a - m, d + m⟩] : List Pt).zip
        (([⟨a - m, c - m⟩, ⟨b + m, c - m⟩, ⟨b + m, d + m⟩, ⟨a - m, d + m⟩] : List Pt).rotate
          1)).map (fun p => p.1.x * p.2.y - p.2.x * p.1.y)).sum
      = (((b - a) + 2*m) * ((d - c) + 2*m)) * 2
    have hrot : ([⟨a - m, c - m⟩, ⟨b + m, c - m⟩, ⟨b + m, d + m⟩, ⟨a - m, d + m⟩]
        : List Pt).rotate 1
        = [⟨b + m, c - m⟩, ⟨b + m, d + m⟩, ⟨a - m, d + m⟩, ⟨a - m, c - m⟩] := rfl
    rw [hrot]
    simp only [List.zip, List.zipWith, List.map, List.sum_cons, List.sum_nil]
    ring
  unfold quadArea
  rw [hS, abs_of_pos (by nlinarith)]
  apply div_pos (by nlinarith) (by norm_num)

/-- A quad produced by the grid-cluster path is in canonical
top-left/top-right/bottom-right/bottom-left order (strictly, by
coordinate sums and differences) and has positive area. -/
lemma checkGridPattern_ordered (cluster : List SquareInfo) (q : List Pt)
    (h : checkGridPattern cluster = some q) :
    q.length = 4
      ∧ ((q.getD 0 default).x + (q.getD 0 default).y
          < (q.getD 1 default).x + (q.getD 1 default).y)
      ∧ ((q.getD 0 default).x + (q.getD 0 default).y
          < (q.getD 3 default).x + (q.getD 3 default).y)
      ∧ ((q.getD 1 default).x + (q.getD 1 default).y
          < (q.getD 2 default).x + (q.getD 2 default).y)
      ∧ ((q.getD 3 default).x + (q.getD 3 default).y
          < (q.getD 2 default).x + (q.getD 2 default).y)
      ∧ ((q.getD 3 default).x - (q.getD 3 default).y
          < (q.getD 1 default).x - (q.getD 1 default).y)
      ∧ 0 < quadArea q := by
  unfold checkGridPattern at h
  by_cases h1 : cluster.isEmpty
  · rw [if_pos h1] at h; cases h
  rw [if_neg h1] at h
  by_cases h2 : cgpXSpan cluster = 0 ∨ cgpYSpan cluster = 0
  · rw [if_pos h2] at h; cases h
  rw [if_neg h2] at h
  by_cases h3 : min (cgpXSpan cluster) (cgpYSpan cluster)
      / max (cgpXSpan cluster) (cgpYSpan cluster) < 45/100
  · rw [if_pos h3] at h; cases h
  rw [if_neg h3] at h
  by_cases h4 : gridAssign (cgpXMin cluster) (cgpYMin cluster)
      (cgpXSpan cluster / 2) (cgpYSpan cluster / 2) (cgpSorted cluster) [] 0 < 7
  · rw [if_pos h4] at h; cases h
  rw [if_neg h4] at h
  cases h
  push_neg at h2
  have hxs : 0 < cgpXSpan cluster := by
    have hle := listMinQ_le_listMaxQ ((cgpSorted cluster).map SquareInfo.cx)
    have hne := h2.1
    unfold cgpXSpan at hne ⊢
    unfold cgpXMin cgpXMax at hne ⊢
    rcases lt_or_eq_of_le hle with hlt | heq
    · linarith
    · exact absurd (by linarith) hne
  have hys : 0 < cgpYSpan cluster := by
    have hle := listMinQ_le_listMaxQ ((cgpSorted cluster).map SquareInfo.cy)
    have hne := h2.2
    unfold cgpYSpan at hne ⊢
    unfold cgpYMin cgpYMax at hne ⊢
    rcases lt_or_eq_of_le hle with hlt | heq
    · linarith
    · exact absurd (by linarith) hne
  have hm : 0 < cgpMargin cluster := by
    unfold cgpMargin
    apply mul_pos (by linarith) (by norm_num)
  have hab : cgpXMin cluster < cgpXMax cluster := by
    unfold cgpXSpan at hxs; linarith
  have hcd : cgpYMin cluster < cgpYMax cluster := by
    unfold cgpYSpan at hys; linarith
  obtain ⟨g1, g2, g3, g4, g5, g6⟩ := rect_margin_ordered (cgpXMin cluster) (cgpXMax cluster)
    (cgpYMin cluster) (cgpYMax cluster) (cgpMargin cluster) hab hcd hm
  exact ⟨rfl, by simpa using g1, by simpa using g2, by simpa using g3,
    by simpa using g4, by simpa using g5, g6⟩

/-- One contour as reported by OpenCV (`findContours` output plus the
per-contour values the code reads): its area (`cv.contourArea`), the
polygon returned by `approxPolyDP(contour, 0.04 * arcLength)`, the
convexity verdict (`cv.isContourConvex`), and the moments m00/m10/m01.
These are the opaque native outputs the embedding takes as input. -/
structure Contour where
  area : ℚ
  approx : List Pt
  convex : Bool
  m00 : ℚ
  m10 : ℚ
  m01 : ℚ
deriving DecidableEq, Repr, Inhabited

/-- First pass of `detectByEdgeGrid`: near-square convex 4-point contours
sized between 0.1% and 4% of frame area become sticker candidates, with
centroid m10/m00, m01/m00.  (`isRoughlySquare(corners, 0.55)`:
0.55² = 3025/10000.) -/
def edgeSquares (contours : List Contour) (frameArea : ℚ) : List SquareInfo :=
  contours.enum.filterMap (fun p =>
    if p.2.area < frameArea * (1/1000) ∨ frameArea * (4/100) < p.2.area then none
    else if p.2.approx.length = 4 ∧ p.2.convex = true
        ∧ isRoughlySquareSq p.2.approx (3025/10000) = true ∧ 0 < p.2.m00 then
      some { cx := p.2.m10 / p.2.m00, cy := p.2.m01 / p.2.m00,
             area := p.2.area, contourIdx := p.1 }
    else none)

/-- `a.area - b.area` sort comparator of `findGridCluster`. -/
def areaLE : SquareInfo → SquareInfo → Prop := fun a b => a.area ≤ b.area

instance : DecidableRel areaLE := fun a b => inferInstanceAs (Decidable (a.area ≤ b.area))

/-- Squared-distance proximity test of `clusterByProximity`:
`sqrt(dx² + dy²) < avgSize * 3.5  ↔  dx² + dy² < avgSizeSq * 12.25`,
where `avgSizeSq = (Σ areas) / n`. -/
def nearSq (a b : SquareInfo) (thrSq : ℚ) : Bool :=
  decide ((a.cx - b.cx)^2 + (a.cy - b.cy)^2 < thrSq)

/-- The BFS of `clusterByProximity`, fuel-bounded: pops one queued index
per step, appends its unvisited in-threshold neighbours (ascending index
order, as the JS `for` loop does).  Total enqueues are bounded by the
number of squares, so fuel `squares.length + 1` always suffices. -/
def bfsCluster (squares : List SquareInfo) (thrSq : ℚ) :
    ℕ → List ℕ → List ℕ → List ℕ → List ℕ × List ℕ
  | 0, _, visited, cluster => (cluster, visited)
  | _ + 1, [], visited, cluster => (cluster, visited)
  | fuel + 1, idx :: queue, visited, cluster =>
      bfsCluster squares thrSq fuel
        (queue ++ (List.range squares.length).filter (fun j =>
          decide (j ∉ visited)
            && nearSq (squares.getD idx default) (squares.getD j default) thrSq))
        (visited ++ (List.range squares.length).filter (fun j =>
          decide (j ∉ visited)
            && nearSq (squares.getD idx default) (squares.getD j default) thrSq))
        (cluster ++ [idx])

/-- The outer loop of `clusterByProximity` over starting indices. -/
def cbpGo (squares : List SquareInfo) (thrSq : ℚ) :
    List ℕ → List ℕ → List (List ℕ)
  | [], _ => []
  | i :: rest, visited =>
      if i ∈ visited then cbpGo squares thrSq rest visited
      else
        (bfsCluster squares thrSq (squares.length + 1) [i] (visited ++ [i]) []).1
          :: cbpGo squares thrSq rest
              (bfsCluster squares thrSq (squares.length + 1) [i] (visited ++ [i]) []).2

/-- `clusterByProximity` of faceDetector.ts: BFS components under the
threshold `avgSize * 3.5` (squared: `(Σ areas / n) * 12.25`). -/
def clusterByProximity (squares : List SquareInfo) : List (List SquareInfo) :=
  (cbpGo squares (((squares.map SquareInfo.area).sum / squares.length) * (1225/100))
      (List.range squares.length) []).map
    (fun idxs => idxs.map (fun i => squares.getD i default))

/-- One `start` iteration of `findGridCluster`. -/
def fgcStart (sorted : List SquareInfo) (start : ℕ) : Option (List Pt × ℚ) :=
  if ((sorted.drop start).filter
      (fun sq => decide (sq.area ≤ (sorted.getD start default).area * 4))).length < 7
  then none
  else
    (clusterByProximity ((sorted.drop start).filter
        (fun sq => decide (sq.area ≤ (sorted.getD start default).area * 4)))).findSome?
      (fun cluster =>
        if cluster.length < 7 then none
        else
          match checkGridPattern cluster with
          | some corners => some (corners, quadArea corners)
          | none => none)

/-- `findGridCluster` of faceDetector.ts (lines 476-509). -/
def findGridClusterE (squares : List SquareInfo) : Option (List Pt × ℚ) :=
  if squares.length < 7 then none
  else
    (List.range (squares.length - 7 + 1)).findSome?
      (fgcStart (List.insertionSort areaLE squares))

/-- The fallback of `detectByEdgeGrid`: scan all contours for the largest
roughly-square convex quad covering ≥ 3% of the frame and containing at
least 3 sticker candidates; its corners are returned exactly as
`approxPolyDP` listed them (`getCorners`), *without* `orderCorners`. -/
def edgeFallback (contours : List Contour) (squares : List SquareInfo)
    (frameArea : ℚ) : ℚ × Option (List Pt) :=
  contours.foldl
    (fun best c =>
      if c.area < frameArea * (3/100) ∨ c.area ≤ best.1 then best
      else if c.approx.length = 4 ∧ c.convex = true
          ∧ isRoughlySquareSq c.approx (25/100) = true then
        if 3 ≤ (squares.filter (fun sq => isPointInsideQuad sq.cx sq.cy c.approx)).length
        then (c.area, some c.approx)
        else best
      else best)
    (0, none)

/-- `detectByEdgeGrid` of faceDetector.ts (lines 322-421), from the
contour list onward. -/
def detectByEdgeGridE (contours : List Contour) (frameRows frameCols : ℚ) :
    Option (List Pt × ℚ) :=
  match findGridClusterE (edgeSquares contours (frameRows * frameCols)) with
  | some r => some r
  | none =>
      match (edgeFallback contours (edgeSquares contours (frameRows * frameCols))
          (frameRows * frameCols)).2 with
      | some corners =>
          some (corners, (edgeFallback contours (edgeSquares contours (frameRows * frameCols))
            (frameRows * frameCols)).1)
      | none => none

/-- `DetectionResult` of the repository's types. -/
structure DetectionResult where
  detected : Bool
  corners : Option (List Pt)
  boundingArea : ℚ
deriving Repr

/-- `detectFace` of faceDetector.ts: the edge strategy first, then the
color-blob strategy.  The blob strategy's grid fit uses `atan2`
(transcendental), so its result is taken as the oracle input `blobRes`;
every claim below is settled on inputs where the edge strategy decides. -/
def detectFaceE (contours : List Contour) (frameRows frameCols : ℚ)
    (blobRes : Option (List Pt × ℚ)) : DetectionResult :=
  match detectByEdgeGridE contours frameRows frameCols with
  | some r => { detected := true, corners := some r.1, boundingArea := r.2 }
  | none =>
      match blobRes with
      | some r => { detected := true, corners := some r.1, boundingArea := r.2 }
      | none => { detected := false, corners := none, boundingArea := 0 }

/-- A sticker-sized square contour of side 10 centred at (cx, cy). -/
def mkSq (cx cy : ℚ) : Contour :=
  { area := 100,
    approx := [⟨cx - 5, cy - 5⟩, ⟨cx + 5, cy - 5⟩, ⟨cx + 5, cy + 5⟩, ⟨cx - 5, cy + 5⟩],
    convex := true, m00 := 100, m10 := cx * 100, m01 := cy * 100 }

/-- The big 80×80 quad contour of the C7 counterexample, with its
`approxPolyDP` corners listed starting at the top-right (contour order,
not canonical order). -/
def bigQuad : Contour :=
  { area := 6400, approx := [⟨90, 10⟩, ⟨10, 10⟩, ⟨10, 90⟩, ⟨90, 90⟩],
    convex := true, m00 := 0, m10 := 0, m01 := 0 }

/-- Three sticker squares (too few for the grid cluster) plus the big
quad, on a 100×100 frame. -/
def exContours : List Contour :=
  [mkSq 30 30, mkSq 50 30, mkSq 70 30, bigQuad]

/-- C7 counterexample.  On `exContours` the grid-cluster path fails
(3 < 7 sticker candidates) and the fallback accepts the big quad,
returning its corners exactly as the contour listed them: the first
returned corner (90, 10) has coordinate sum 100 > 20, the sum of the
second corner — the quad is a successful detection whose corners are not
in top-left/top-right/bottom-right/bottom-left order. -/
theorem detectFace_unordered_cex :
    (detectFaceE exContours 100 100 none).detected = true
      ∧ (detectFaceE exContours 100 100 none).corners
          = some [⟨90, 10⟩, ⟨10, 10⟩, ⟨10, 90⟩, ⟨90, 90⟩]
      ∧ ¬ ((⟨90, 10⟩ : Pt).x + (⟨90, 10⟩ : Pt).y
            ≤ (⟨10, 10⟩ : Pt).x + (⟨10, 10⟩ : Pt).y) := by
  have hsq : edgeSquares exContours (100 * 100) =
      [{ cx := 30, cy := 30, area := 100, contourIdx := 0 },
       { cx := 50, cy := 30, area := 100, contourIdx := 1 },
       { cx := 70, cy := 30, area := 100, contourIdx := 2 }] := by
    norm_num [edgeSquares, exContours, mkSq, bigQuad, isRoughlySquareSq, orderCorners,
      ocSorted, ocRem, List.insertionSort, List.orderedInsert, sumLE, diffLE, distSq,
      List.enum, List.enumFrom, List.filterMap]
  have hfgc : findGridClusterE (edgeSquares exContours (100 * 100)) = none := by
    rw [hsq]
    norm_num [findGridClusterE]
  have hfb : edgeFallback exContours (edgeSquares exContours (100 * 100)) (100 * 100)
      = (6400, some [⟨90, 10⟩, ⟨10, 10⟩, ⟨10, 90⟩, ⟨90, 90⟩]) := by
    rw [hsq]
    norm_num [edgeFallback, exContours, mkSq, bigQuad, isRoughlySquareSq, orderCorners,
      ocSorted, ocRem, List.insertionSort, List.orderedInsert, sumLE, diffLE, distSq,
      isPointInsideQuad, List.filter, List.foldl, List.all_cons, List.all_nil,
      List.range_succ, List.range_zero, List.all_append, List.getElem?_cons_zero,
      List.getElem?_cons_succ, Option.getD_some, List.getD]
  have hedge : detectByEdgeGridE exContours 100 100
      = some ([⟨90, 10⟩, ⟨10, 10⟩, ⟨10, 90⟩, ⟨90, 90⟩], 6400) := by
    unfold detectByEdgeGridE
    rw [hfgc, hfb]
  refine ⟨?_, ?_, by norm_num⟩
  · unfold detectFaceE
    rw [hedge]
  · unfold detectFaceE
    rw [hedge]

/-- The nine-square 3×3 cluster witnessing that the grid-cluster path
does fire (spacing 20, margin 0.85 · 20 = 17). -/
def exCluster : List SquareInfo :=
  [{ cx := 10, cy := 10, area := 100, contourIdx := 0 },
   { cx := 30, cy := 10, area := 100, contourIdx := 1 },
   { cx := 50, cy := 10, area := 100, contourIdx := 2 },
   { cx := 10, cy := 30, area := 100, contourIdx := 3 },
   { cx := 30, cy := 30, area := 100, contourIdx := 4 },
   { cx := 50, cy := 30, area := 100, contourIdx := 5 },
   { cx := 10, cy := 50, area := 100, contourIdx := 6 },
   { cx := 30, cy := 50, area := 100, contourIdx := 7 },
   { cx := 50, cy := 50, area := 100, contourIdx := 8 }]

/-- C7 (amended).  (i) Every quad produced by the edge strategy's
grid-cluster path (`checkGridPattern`) is ordered
top-left/top-right/bottom-right/bottom-left — minimal coordinate sum
first, maximal third, the remaining two split by `x - y` — and has
non-zero area; (ii) `orderCorners` (applied to every quad before
sampling) permutes any four corners into that canonical order; (iii) the
grid-cluster path does fire on a full 3×3 cluster.  Quads from the edge
strategy's fallback path are, by contrast, returned in raw contour order
(see the counterexample). -/
theorem faceDetector_corner_order :
    (∀ (cluster : List SquareInfo) (q : List Pt), checkGridPattern cluster = some q →
        q.length = 4
          ∧ ((q.getD 0 default).x + (q.getD 0 default).y
              < (q.getD 1 default).x + (q.getD 1 default).y)
          ∧ ((q.getD 0 default).x + (q.getD 0 default).y
              < (q.getD 3 default).x + (q.getD 3 default).y)
          ∧ ((q.getD 1 default).x + (q.getD 1 default).y
              < (q.getD 2 default).x + (q.getD 2 default).y)
          ∧ ((q.getD 3 default).x + (q.getD 3 default).y
              < (q.getD 2 default).x + (q.getD 2 default).y)
          ∧ ((q.getD 3 default).x - (q.getD 3 default).y
              < (q.getD 1 default).x - (q.getD 1 default).y)
          ∧ 0 < quadArea q)
      ∧ (∀ c0 c1 c2 c3 : Pt,
          (orderCorners [c0, c1, c2, c3]).Perm [c0, c1, c2, c3]
            ∧ (∀ p ∈ orderCorners [c0, c1, c2, c3],
                ((orderCorners [c0, c1, c2, c3]).getD 0 default).x
                    + ((orderCorners [c0, c1, c2, c3]).getD 0 default).y ≤ p.x + p.y
                ∧ p.x + p.y ≤ ((orderCorners [c0, c1, c2, c3]).getD 2 default).x
                    + ((orderCorners [c0, c1, c2, c3]).getD 2 default).y)
            ∧ ((orderCorners [c0, c1, c2, c3]).getD 3 default).x
                - ((orderCorners [c0, c1, c2, c3]).getD 3 default).y
                ≤ ((orderCorners [c0, c1, c2, c3]).getD 1 default).x
                    - ((orderCorners [c0, c1, c2, c3]).getD 1 default).y)
      ∧ checkGridPattern exCluster = some [⟨-7, -7⟩, ⟨67, -7⟩, ⟨67, 67⟩, ⟨-7, 67⟩] := by
  refine ⟨checkGridPattern_ordered, orderCorners_spec, ?_⟩
  norm_num [checkGridPattern, exCluster, cgpSorted, cgpXMin, cgpXMax, cgpYMin, cgpYMax,
    cgpXSpan, cgpYSpan, cgpMargin, listMinQ, listMaxQ, gridAssign, jsRound,
    List.insertionSort, List.orderedInsert, cgLE, Prod.mk.injEq, List.mem_cons,
    List.not_mem_nil, List.mem_singleton]
  decide

/-! ## Sticker sampling and the full classification pipeline
(colorClassifier.ts lines 45-72, 247-302, 349-371). -/

/-- Truncation toward zero (the rounding of the JS `%` operator). -/
def ratTrunc (q : ℚ) : ℤ := if q < 0 then ⌈q⌉ else ⌊q⌋

/-- The JS remainder `x % y` (sign of the dividend). -/
def jsRem (x y : ℚ) : ℚ := x - y * (ratTrunc (x / y) : ℚ)

/-- `rgbToHsv` of colorClassifier.ts: OpenCV-scale HSV
(H 0-180, S 0-255, V 0-255), each channel `Math.round`ed. -/
def rgbToHsv (r g b : ℚ) : ℚ × ℚ × ℚ :=
  let rq := r / 255
  let gq := g / 255
  let bq := b / 255
  let mx := max rq (max gq bq)
  let mn := min rq (min gq bq)
  let delta := mx - mn
  let v := mx
  let s := if mx = 0 then 0 else delta / mx
  let h0 : ℚ :=
    if delta = 0 then 0
    else if mx = rq then jsRem ((gq - bq) / delta) 6 * 60
    else if mx = gq then ((bq - rq) / delta + 2) * 60
    else ((rq - gq) / delta + 4) * 60
  let h := if h0 < 0 then h0 + 360 else h0
  ((jsRound (h / 2) : ℚ), (jsRound (s * 255) : ℚ), (jsRound (v * 255) : ℚ))

/-- `classifyColor` as called by the pipeline: hsv plus rgb, the Lab value
obtained through the (abstracted) `rgbToLab`. -/
def classifyColorP (labFn : RGB → Lab) (h s v : ℚ) (rgb : RGB) : Color :=
  classifyColorLab h s v (labFn rgb)

/-- An `ImageData`: width, height and the flat RGBA byte array (a total
function standing for `data[idx]`). -/
structure ImageDataQ where
  width : ℕ
  height : ℕ
  data : ℕ → ℚ

/-- `SAMPLE_RADIUS` of constants.ts. -/
def SAMPLE_RADIUS : ℕ := 8

/-- `Math.max(1, Math.floor(radius / 2.5))`. -/
def sampleStep (radius : ℕ) : ℕ := max 1 (Int.toNat ⌊(radius : ℚ) / (5/2)⌋)

/-- The offsets of `for (let d = -radius; d <= radius; d += step)`. -/
def sampleOffsets (radius step : ℕ) : List ℤ :=
  (List.range ((2 * radius) / step + 1)).map (fun k => (k * step : ℤ) - radius)

/-- One collected sub-sample with its luminance. -/
structure RGBSample where
  r : ℚ
  g : ℚ
  b : ℚ
  brightness : ℚ
deriving DecidableEq, Repr, Inhabited

/-- The sub-sample collection loop of `sampleRegionRobust` (outer dy,
inner dx, bounds-checked, brightness `0.299 r + 0.587 g + 0.114 b`). -/
def samplePixels (img : ImageDataQ) (cx cy : ℤ) (radius : ℕ) : List RGBSample :=
  (sampleOffsets radius (sampleStep radius)).flatMap (fun dy =>
    (sampleOffsets radius (sampleStep radius)).filterMap (fun dx =>
      if 0 ≤ cx + dx ∧ cx + dx < (img.width : ℤ) ∧ 0 ≤ cy + dy ∧ cy + dy < (img.height : ℤ)
      then
        some { r := img.data (((cy + dy) * img.width + (cx + dx)) * 4).toNat,
               g := img.data ((((cy + dy) * img.width + (cx + dx)) * 4).toNat + 1),
               b := img.data ((((cy + dy) * img.width + (cx + dx)) * 4).toNat + 2),
               brightness :=
                 (299/1000) * img.data (((cy + dy) * img.width + (cx + dx)) * 4).toNat
                   + (587/1000) * img.data ((((cy + dy) * img.width + (cx + dx)) * 4).toNat + 1)
                   + (114/1000) * img.data ((((cy + dy) * img.width + (cx + dx)) * 4).toNat + 2) }
      else none))

/-- The brightness comparator of the JS sort (stable). -/
def brLE : RGBSample → RGBSample → Prop := fun a b => a.brightness ≤ b.brightness

instance : DecidableRel brLE := fun a b => inferInstanceAs (Decidable (a.brightness ≤ b.brightness))

/-- The luminance-sorted, trimmed sub-sample list of `sampleRegionRobust`
(`slice(lo, hi)` with `lo = floor(0.1 n)`, `hi = ceil(0.8 n)`). -/
def trimmedSamples (img : ImageDataQ) (cx cy : ℤ) (radius : ℕ) : List RGBSample :=
  ((List.insertionSort brLE (samplePixels img cx cy radius)).drop
      (Int.toNat ⌊((samplePixels img cx cy radius).length : ℚ) * (1/10)⌋)).take
    (Int.toNat ⌈((samplePixels img cx cy radius).length : ℚ) * (8/10)⌉
      - Int.toNat ⌊((samplePixels img cx cy radius).length : ℚ) * (1/10)⌋)

/-- `sampleRegionRobust`: sub-sample grid, sorted by luminance, darkest
10% and brightest 20% discarded, remainder averaged; gray (128,128,128)
when no sample survives. -/
def sampleRegionRobust (img : ImageDataQ) (cx cy : ℤ) (radius : ℕ) : RGB :=
  if (samplePixels img cx cy radius).isEmpty then (128, 128, 128)
  else if (trimmedSamples img cx cy radius).isEmpty then (128, 128, 128)
  else
    (((trimmedSamples img cx cy radius).map RGBSample.r).sum
        / ((trimmedSamples img cx cy radius).length : ℚ),
     ((trimmedSamples img cx cy radius).map RGBSample.g).sum
        / ((trimmedSamples img cx cy radius).length : ℚ),
     ((trimmedSamples img cx cy radius).map RGBSample.b).sum
        / ((trimmedSamples img cx cy radius).length : ℚ))

/-- `extractStickersFromWarped`: sample each of the 9 cell centres
(row-major), classify, then apply the face-level R/O refinement. -/
def extractStickersFromWarped (labFn : RGB → Lab) (img : ImageDataQ) (size : ℚ) :
    List Sticker :=
  resolveRedOrange labFn
    ((List.range 3).flatMap (fun row =>
      (List.range 3).map (fun col =>
        { color := classifyColorP labFn
            (rgbToHsv (sampleRegionRobust img ⌊(col : ℚ) * (size / 3) + size / 3 / 2⌋
                ⌊(row : ℚ) * (size / 3) + size / 3 / 2⌋ SAMPLE_RADIUS).1
              (sampleRegionRobust img ⌊(col : ℚ) * (size / 3) + size / 3 / 2⌋
                ⌊(row : ℚ) * (size / 3) + size / 3 / 2⌋ SAMPLE_RADIUS).2.1
              (sampleRegionRobust img ⌊(col : ℚ) * (size / 3) + size / 3 / 2⌋
                ⌊(row : ℚ) * (size / 3) + size / 3 / 2⌋ SAMPLE_RADIUS).2.2).1
            (rgbToHsv (sampleRegionRobust img ⌊(col : ℚ) * (size / 3) + size / 3 / 2⌋
                ⌊(row : ℚ) * (size / 3) + size / 3 / 2⌋ SAMPLE_RADIUS).1
              (sampleRegionRobust img ⌊(col : ℚ) * (size / 3) + size / 3 / 2⌋
                ⌊(row : ℚ) * (size / 3) + size / 3 / 2⌋ SAMPLE_RADIUS).2.1
              (sampleRegionRobust img ⌊(col : ℚ) * (size / 3) + size / 3 / 2⌋
                ⌊(row : ℚ) * (size / 3) + size / 3 / 2⌋ SAMPLE_RADIUS).2.2).2.1
            (rgbToHsv (sampleRegionRobust img ⌊(col : ℚ) * (size / 3) + size / 3 / 2⌋
                ⌊(row : ℚ) * (size / 3) + size / 3 / 2⌋ SAMPLE_RADIUS).1
              (sampleRegionRobust img ⌊(col : ℚ) * (size / 3) + size / 3 / 2⌋
                ⌊(row : ℚ) * (size / 3) + size / 3 / 2⌋ SAMPLE_RADIUS).2.1
              (sampleRegionRobust img ⌊(col : ℚ) * (size / 3) + size / 3 / 2⌋
                ⌊(row : ℚ) * (size / 3) + size / 3 / 2⌋ SAMPLE_RADIUS).2.2).2.2
            (sampleRegionRobust img ⌊(col : ℚ) * (size / 3) + size / 3 / 2⌋
              ⌊(row : ℚ) * (size / 3) + size / 3 / 2⌋ SAMPLE_RADIUS),
          rgb := sampleRegionRobust img ⌊(col : ℚ) * (size / 3) + size / 3 / 2⌋
            ⌊(row : ℚ) * (size / 3) + size / 3 / 2⌋ SAMPLE_RADIUS,
          hsv := rgbToHsv (sampleRegionRobust img ⌊(col : ℚ) * (size / 3) + size / 3 / 2⌋
                ⌊(row : ℚ) * (size / 3) + size / 3 / 2⌋ SAMPLE_RADIUS).1
              (sampleRegionRobust img ⌊(col : ℚ) * (size / 3) + size / 3 / 2⌋
                ⌊(row : ℚ) * (size / 3) + size / 3 / 2⌋ SAMPLE_RADIUS).2.1
              (sampleRegionRobust img ⌊(col : ℚ) * (size / 3) + size / 3 / 2⌋
                ⌊(row : ℚ) * (size / 3) + size / 3 / 2⌋ SAMPLE_RADIUS).2.2 })))

lemma assignColor_length (c : Color) :
    ∀ (targets : List ℕ) (l : List Sticker), (assignColor targets c l).length = l.length := by
  intro targets
  induction targets with
  | nil => intro l; rfl
  | cons i rest ih =>
      intro l
      have hstep : assignColor (i :: rest) c l = assignColor rest c
          (match l[i]? with
           | some stk => l.set i { stk with color := c }
           | none => l) := by
        unfold assignColor
        rw [List.foldl_cons]
      rw [hstep]
      cases hget : l[i]? with
      | none => exact ih l
      | some stk =>
          rw [ih (l.set i { stk with color := c })]
          exact List.length_set l i _

lemma resolveRedOrange_length (labFn : RGB → Lab) (s : List Sticker) :
    (resolveRedOrange labFn s).length = s.length := by
  unfold resolveRedOrange
  by_cases h1 : (roEntries labFn s).length ≤ 1
  · rw [if_pos h1]
  · rw [if_neg h1]
    by_cases h2 : roSpread labFn s < 12
    · rw [if_pos h2]
      exact assignColor_length _ _ s
    · rw [if_neg h2]
      by_cases h3 : 6 < (bestGapScan ((roSorted labFn s).map ROEntry.bLab)).1
      · rw [if_pos h3]
        rw [assignColor_length, assignColor_length]
      · rw [if_neg h3]
        exact assignColor_length _ _ s

/-- C9.  The sticker-extraction-and-classification pipeline is a pure
function of the image pixels: two images of equal dimensions whose data
agree at every index classify to exactly the same 9 stickers (same 9
colors), for every Lab conversion. -/
theorem extractStickers_deterministic (labFn : RGB → Lab) (img1 img2 : ImageDataQ)
    (size : ℚ) (hw : img1.width = img2.width) (hh : img1.height = img2.height)
    (hd : ∀ i, img1.data i = img2.data i) :
    extractStickersFromWarped labFn img1 size = extractStickersFromWarped labFn img2 size
      ∧ (extractStickersFromWarped labFn img1 size).length = 9 := by
  have himg : img1 = img2 := by
    cases img1 with
    | mk w1 h1 d1 =>
        cases img2 with
        | mk w2 h2 d2 =>
            simp only at hw hh
            subst hw
            subst hh
            have : d1 = d2 := funext hd
            rw [this]
  constructor
  · rw [himg]
  · unfold extractStickersFromWarped
    rw [resolveRedOrange_length]
    rfl

/-- Witness for C9 at a concrete 3×3 uniform gray image. -/
theorem extractStickers_deterministic_witness :
    (∀ i, (ImageDataQ.mk 3 3 (fun _ => 128)).data i
        = (ImageDataQ.mk 3 3 (fun _ => 128)).data i)
      ∧ (extractStickersFromWarped labZero (ImageDataQ.mk 3 3 (fun _ => 128)) 3
            = extractStickersFromWarped labZero (ImageDataQ.mk 3 3 (fun _ => 128)) 3
          ∧ (extractStickersFromWarped labZero (ImageDataQ.mk 3 3 (fun _ => 128)) 3).length
              = 9) :=
  ⟨fun _ => rfl,
   extractStickers_deterministic labZero (ImageDataQ.mk 3 3 (fun _ => 128))
     (ImageDataQ.mk 3 3 (fun _ => 128)) 3 rfl rfl (fun _ => rfl)⟩

/-! ## The per-frame scanning loop (src/unnamed/part_010, `useScannerLoop`
revision at lines 17-271, and `isSimilarDetection` at lines 273-286).
The refs of the hook become an explicit state record; per-frame
environment data (the clock, the two `extractFaceColors` calls, the
`detectFace` result, the two store answers `canScanFace` and
`addScannedFace`, and the already-scanned faces) are oracle inputs. -/

/-- `STABILITY_THRESHOLD_MS` of constants.ts. -/
def STABILITY_THRESHOLD_MS : ℤ := 1000

/-- `STABILITY_POSITION_TOLERANCE` of constants.ts. -/
def STABILITY_POSITION_TOLERANCE : ℚ := 20

/-- `LOCK_FAIL_THRESHOLD` of useScannerLoop. -/
def LOCK_FAIL_THRESHOLD : ℕ := 4

/-- `isSimilarDetection`: true when both corner lists have 4 points and
each pair is within the position tolerance on both axes. -/
def isSimilarDetection (prev : Option (List Pt)) (curr : List Pt) : Bool :=
  match prev with
  | none => false
  | some p =>
      if p.length ≠ 4 ∨ curr.length ≠ 4 then false
      else (List.range 4).all (fun i =>
        decide (|(p.getD i default).x - (curr.getD i default).x|
            ≤ STABILITY_POSITION_TOLERANCE)
          && decide (|(p.getD i default).y - (curr.getD i default).y|
            ≤ STABILITY_POSITION_TOLERANCE))

/-- The mutable refs of `useScannerLoop`. -/
structure ScanState where
  lastCorners : Option (List Pt)
  stableStart : ℤ
  cooldown : ℤ
  voting : VotingBuffer
  lockedCorners : Option (List Pt)
  lockFailCount : ℕ
  lastFrameColors : Option (List Color)
deriving Repr

/-- The environment of one `processFrame` call: the clock, the result of
`extractFaceColors(frame, lockedCorners)` (used only when locked), the
`detectFace` corners (when detected), the result of
`extractFaceColors(frame, corners)`, the store's `canScanFace` and
`addScannedFace` answers, and the already-scanned faces. -/
structure FrameInput where
  now : ℤ
  lockExtract : Option (List Sticker)
  detect : Option (List Pt)
  extract : Option (List Sticker)
  canScan : Bool
  addOk : Bool
  faces : List (List Sticker)
deriving Inhabited

/-- The `if (!corners)` detection step: a successful `detectFace` yields
the corners and re-locks on them. -/
def stage1Detect (inp : FrameInput) (locked : Option (List Pt)) (fail : ℕ) :
    Option (List Pt) × Bool × Option (List Pt) × ℕ :=
  match inp.detect with
  | some q => (some q, false, some q, 0)
  | none => (none, false, locked, fail)

/-- Corner resolution (lines 74-118): a locked position whose extraction
still succeeds is reused (`usedLockedPosition`); on failure the fail
counter advances and unlocks at the threshold; whenever no corners were
obtained, full detection runs.  Returns
(corners, usedLockedPosition, lockedCorners, lockFailCount). -/
def stage1 (st : ScanState) (inp : FrameInput) :
    Option (List Pt) × Bool × Option (List Pt) × ℕ :=
  match st.lockedCorners with
  | some lc =>
      match inp.lockExtract with
      | some _ => (some lc, true, some lc, 0)
      | none =>
          stage1Detect inp
            (if LOCK_FAIL_THRESHOLD ≤ st.lockFailCount + 1 then none else some lc)
            (if LOCK_FAIL_THRESHOLD ≤ st.lockFailCount + 1 then 0 else st.lockFailCount + 1)
  | none => stage1Detect inp none st.lockFailCount

/-- The `changed` tally of the color-shift check (positions 0..8 where the
previous frame's color differs). -/
def changedCount (prev fc : List Color) : ℕ :=
  ((List.range 9).filter (fun i => decide (prev.getD i default ≠ fc.getD i default))).length

/-- The color-shift trigger (lines 147-153): previous frame recorded, 9
long, and at least 3 positions changed. -/
def shiftDetected (st : ScanState) (fc : List Color) : Bool :=
  match st.lastFrameColors with
  | some prev => decide (prev.length = 9) && decide (3 ≤ changedCount prev fc)
  | none => false

/-- Result of the voting step: the (possibly shifted) stability start, the
advanced voting buffer, the recorded frame colors, the consensus, and
whether the color-shift reset fired (which also unlocks the position). -/
structure Stage2Out where
  stableStart : ℤ
  voting : VotingBuffer
  lastFrameColors : Option (List Color)
  votedColors : Option (List Color)
  shiftReset : Bool

/-- The voting step (lines 142-165): without stickers nothing changes and
there is no consensus; otherwise the shift check may reset the buffer and
restart stability at `now`, the frame colors are recorded, and the frame
is pushed through `addFrame`. -/
def stage2 (st : ScanState) (inp : FrameInput) : Stage2Out :=
  match inp.extract with
  | none => ⟨st.stableStart, st.voting, st.lastFrameColors, none, false⟩
  | some s =>
      if shiftDetected st (s.map Sticker.color) then
        ⟨inp.now,
         (VotingBuffer.addFrame { st.voting with buffer := [] } (s.map Sticker.color)).2,
         some (s.map Sticker.color),
         (VotingBuffer.addFrame { st.voting with buffer := [] } (s.map Sticker.color)).1,
         true⟩
      else
        ⟨st.stableStart,
         (st.voting.addFrame (s.map Sticker.color)).2,
         some (s.map Sticker.color),
         (st.voting.addFrame (s.map Sticker.color)).1,
         false⟩

/-- `votedStickers`: the latest frame's stickers repainted with the
consensus colors (`stickers.map((s, i) => ({ ...s, color: votedColors[i] }))`,
the two lists being 9 long whenever built). -/
def votedSticks (s : List Sticker) (vc : List Color) : List Sticker :=
  (s.zip vc).map (fun p => { p.1 with color := p.2 })

/-- State after the no-corners early return (lines 123-135): tracking and
voting reset, position lock as stage 1 left it, cooldown untouched. -/
def resetState (st : ScanState) (lk : Option (List Pt)) (fl : ℕ) : ScanState :=
  { st with lastCorners := none, lastFrameColors := none, stableStart := 0,
            voting := { st.voting with buffer := [] },
            lockedCorners := lk, lockFailCount := fl }

/-- State after an unstable frame (lines 184-186): stability restarts at
`now`; voting and tracking keep the stage-2 results. -/
def unstableState (st : ScanState) (inp : FrameInput) (q : List Pt)
    (lk : Option (List Pt)) (fl : ℕ) : ScanState :=
  { st with lastCorners := some q, stableStart := inp.now,
            voting := (stage2 st inp).voting,
            lastFrameColors := (stage2 st inp).lastFrameColors,
            lockedCorners := if (stage2 st inp).shiftReset then none else lk,
            lockFailCount := if (stage2 st inp).shiftReset then 0 else fl }

/-- State after a stable frame that commits nothing: the stage-1/stage-2
updates stand, the cooldown is untouched. -/
def noCaptureState (st : ScanState) (inp : FrameInput) (q : List Pt)
    (lk : Option (List Pt)) (fl : ℕ) : ScanState :=
  { st with lastCorners := some q, stableStart := (stage2 st inp).stableStart,
            voting := (stage2 st inp).voting,
            lastFrameColors := (stage2 st inp).lastFrameColors,
            lockedCorners := if (stage2 st inp).shiftReset then none else lk,
            lockFailCount := if (stage2 st inp).shiftReset then 0 else fl }

/-- State after a committed capture (lines 230-239): 1.5 s cooldown, full
tracking/voting reset and unlock. -/
def captureState (st : ScanState) (inp : FrameInput) : ScanState :=
  { st with lastCorners := none, stableStart := 0,
            cooldown := inp.now + 1500,
            voting := { (stage2 st inp).voting with buffer := [] },
            lastFrameColors := none,
            lockedCorners := none, lockFailCount := 0 }

/-- State after an auto-update of an already-scanned face (lines 244-255):
1.5 s cooldown, voting reset and stability restart, tracking kept. -/
def updateState (st : ScanState) (inp : FrameInput) (q : List Pt)
    (lk : Option (List Pt)) (fl : ℕ) : ScanState :=
  { st with lastCorners := some q, stableStart := 0,
            cooldown := inp.now + 1500,
            voting := { (stage2 st inp).voting with buffer := [] },
            lastFrameColors := (stage2 st inp).lastFrameColors,
            lockedCorners := if (stage2 st inp).shiftReset then none else lk,
            lockFailCount := if (stage2 st inp).shiftReset then 0 else fl }

/-- The auto-capture block (lines 188-257): fires only when the stable
time reaches the threshold, a consensus and stickers exist and the
cooldown has passed; then the voted face must validate; a new face is
added (`canScan` and the store accepting) or an already-scanned one
auto-updated (`!canScan`), each setting the cooldown; a rejected add
changes nothing further. -/
def captureCheck (st : ScanState) (inp : FrameInput) (q : List Pt)
    (lk : Option (List Pt)) (fl : ℕ) : ScanState × Option (Bool × List Sticker) :=
  match (stage2 st inp).votedColors, inp.extract with
  | some vc, some s =>
      if STABILITY_THRESHOLD_MS ≤ inp.now - (stage2 st inp).stableStart
          ∧ st.cooldown < inp.now then
        if (validateFaceColors (votedSticks s vc)).1 = false then
          (noCaptureState st inp q lk fl, none)
        else if inp.canScan then
          if inp.addOk then
            (captureState st inp,
             some (true, centerAnchoredCorrection (votedSticks s vc) inp.faces))
          else (noCaptureState st inp q lk fl, none)
        else
          (updateState st inp q lk fl,
           some (false, centerAnchoredCorrection (votedSticks s vc) inp.faces))
      else (noCaptureState st inp q lk fl, none)
  | _, _ => (noCaptureState st inp q lk fl, none)

/-- The stability gate (lines 181-186): a frame is stable when the locked
position was used or the corners match the previous frame's within the
tolerance. -/
def stableStep (st : ScanState) (inp : FrameInput) (q : List Pt) (u : Bool)
    (lk : Option (List Pt)) (fl : ℕ) : ScanState × Option (Bool × List Sticker) :=
  if (u || isSimilarDetection st.lastCorners q) = false then
    (unstableState st inp q lk fl, none)
  else captureCheck st inp q lk fl

/-- One `processFrame` call: corner resolution, then either the no-corners
reset or the voting/stability/capture pipeline.  The second component is
the emitted face, `true` for a newly captured face, `false` for an
auto-update. -/
def processFrame (st : ScanState) (inp : FrameInput) :
    ScanState × Option (Bool × List Sticker) :=
  match stage1 st inp with
  | (none, _, lk, fl) => (resetState st lk fl, none)
  | (some q, u, lk, fl) => stableStep st inp q u lk fl

/-- The loop: one `processFrame` per input frame, collecting each frame's
emission. -/
def runScan (st : ScanState) : List FrameInput → ScanState × List (Option (Bool × List Sticker))
  | [] => (st, [])
  | inp :: rest =>
      ((runScan (processFrame st inp).1 rest).1,
       (processFrame st inp).2 :: (runScan (processFrame st inp).1 rest).2)

lemma captureCheck_main (st : ScanState) (inp : FrameInput) (q : List Pt)
    (lk : Option (List Pt)) (fl : ℕ) :
    ((captureCheck st inp q lk fl).2 = none
        ∧ (captureCheck st inp q lk fl).1.cooldown = st.cooldown)
    ∨ ((captureCheck st inp q lk fl).2.isSome = true
        ∧ STABILITY_THRESHOLD_MS ≤ inp.now - (stage2 st inp).stableStart
        ∧ (stage2 st inp).votedColors.isSome = true
        ∧ st.cooldown < inp.now
        ∧ (captureCheck st inp q lk fl).1.cooldown = inp.now + 1500) := by
  unfold captureCheck
  rcases hv : (stage2 st inp).votedColors with _ | vc
  · rcases hs : inp.extract with _ | s
    · exact Or.inl ⟨rfl, rfl⟩
    · exact Or.inl ⟨rfl, rfl⟩
  · rcases hs : inp.extract with _ | s
    · exact Or.inl ⟨rfl, rfl⟩
    · dsimp only
      by_cases hcond : STABILITY_THRESHOLD_MS ≤ inp.now - (stage2 st inp).stableStart
          ∧ st.cooldown < inp.now
      · rw [if_pos hcond]
        by_cases hval : (validateFaceColors (votedSticks s vc)).1 = false
        · rw [if_pos hval]
          exact Or.inl ⟨rfl, rfl⟩
        · rw [if_neg hval]
          cases hcs : inp.canScan with
          | false =>
              rw [if_neg (by simp [hcs])]
              exact Or.inr ⟨rfl, hcond.1, rfl, hcond.2, rfl⟩
          | true =>
              rw [if_pos (by simp [hcs])]
              cases hao : inp.addOk with
              | false =>
                  rw [if_neg (by simp [hao])]
                  exact Or.inl ⟨rfl, rfl⟩
              | true =>
                  rw [if_pos (by simp [hao])]
                  exact Or.inr ⟨rfl, hcond.1, rfl, hcond.2, rfl⟩
      · rw [if_neg hcond]
        exact Or.inl ⟨rfl, rfl⟩

lemma processFrame_main (st : ScanState) (inp : FrameInput) :
    ((processFrame st inp).2 = none
        ∧ (processFrame st inp).1.cooldown = st.cooldown)
    ∨ ((processFrame st inp).2.isSome = true
        ∧ STABILITY_THRESHOLD_MS ≤ inp.now - (stage2 st inp).stableStart
        ∧ (stage2 st inp).votedColors.isSome = true
        ∧ st.cooldown < inp.now
        ∧ (∃ c u lk fl, stage1 st inp = (some c, u, lk, fl)
            ∧ (u || isSimilarDetection st.lastCorners c) = true)
        ∧ (processFrame st inp).1.cooldown = inp.now + 1500) := by
  unfold processFrame
  rcases h1 : stage1 st inp with ⟨c, u, lk, fl⟩
  cases c with
  | none => exact Or.inl ⟨rfl, rfl⟩
  | some q =>
      dsimp only
      unfold stableStep
      by_cases hst : (u || isSimilarDetection st.lastCorners q) = false
      · rw [if_pos hst]
        exact Or.inl ⟨rfl, rfl⟩
      · rw [if_neg hst]
        rcases captureCheck_main st inp q lk fl with hL | hR
        · exact Or.inl hL
        · exact Or.inr ⟨hR.1, hR.2.1, hR.2.2.1, hR.2.2.2.1,
            ⟨q, u, lk, fl, rfl, eq_true_of_ne_false hst⟩, hR.2.2.2.2⟩

lemma runScan_first_emit (inputs : List FrameInput) : ∀ (st : ScanState) (j : ℕ),
    (((runScan st inputs).2.getD j none).isSome = true) →
    (∀ k, k < j → (runScan st inputs).2.getD k none = none) →
    st.cooldown < (inputs.getD j default).now := by
  induction inputs with
  | nil =>
      intro st j hj _
      simp [runScan] at hj
  | cons inp rest ih =>
      intro st j hj hk
      cases j with
      | zero =>
          have hj0 : ((processFrame st inp).2).isSome = true := hj
          rcases processFrame_main st inp with hL | hR
          · rw [hL.1] at hj0
            exact absurd hj0 (by simp)
          · exact hR.2.2.2.1
      | succ j =>
          have hhead : (processFrame st inp).2 = none := by
            have := hk 0 (Nat.succ_pos j)
            exact this
          have hcool : (processFrame st inp).1.cooldown = st.cooldown := by
            rcases processFrame_main st inp with hL | hR
            · exact hL.2
            · rw [hhead] at hR
              exact absurd hR.1 (by simp)
          have htail : (((runScan (processFrame st inp).1 rest).2.getD j none).isSome = true) := hj
          have hktail : ∀ k, k < j → (runScan (processFrame st inp).1 rest).2.getD k none = none := by
            intro k hklt
            exact hk (k + 1) (Nat.succ_lt_succ hklt)
          have := ih (processFrame st inp).1 j htail hktail
          rw [hcool] at this
          exact this

lemma runScan_spacing (inputs : List FrameInput) : ∀ (st : ScanState) (i j : ℕ),
    i < j →
    (((runScan st inputs).2.getD i none).isSome = true) →
    (((runScan st inputs).2.getD j none).isSome = true) →
    (∀ k, i < k → k < j → (runScan st inputs).2.getD k none = none) →
    (inputs.getD i default).now + 1500 < (inputs.getD j default).now := by
  induction inputs with
  | nil =>
      intro st i j _ hi _ _
      simp [runScan] at hi
  | cons inp rest ih =>
      intro st i j hij hi hj hbetween
      cases i with
      | zero =>
          rcases j with _ | j
          · exact absurd hij (lt_irrefl 0)
          · have hi0 : ((processFrame st inp).2).isSome = true := hi
            have hcool : (processFrame st inp).1.cooldown = inp.now + 1500 := by
              rcases processFrame_main st inp with hL | hR
              · rw [hL.1] at hi0
                exact absurd hi0 (by simp)
              · exact hR.2.2.2.2.2
            have htail : (((runScan (processFrame st inp).1 rest).2.getD j none).isSome = true) := hj
            have hktail : ∀ k, k < j → (runScan (processFrame st inp).1 rest).2.getD k none = none := by
              intro k hklt
              exact hbetween (k + 1) (Nat.succ_pos k) (Nat.succ_lt_succ hklt)
            have := runScan_first_emit rest (processFrame st inp).1 j htail hktail
            rw [hcool] at this
            exact this
      | succ i =>
          rcases j with _ | j
          · exact absurd hij (by omega)
          · have hij2 : i < j := Nat.lt_of_succ_lt_succ hij
            have hbet2 : ∀ k, i < k → k < j →
                (runScan (processFrame st inp).1 rest).2.getD k none = none := by
              intro k hik hkj
              exact hbetween (k + 1) (Nat.succ_lt_succ hik) (Nat.succ_lt_succ hkj)
            exact ih (processFrame st inp).1 i j hij2 hi hj hbet2

/-- C8.  Capture gating and cooldown of the scanning loop.  (1) A frame
that emits a face (capture or auto-update) does so only when the elapsed
stable time since the (possibly shift-restarted) stability start reaches
`STABILITY_THRESHOLD_MS`, the voting buffer returned a consensus, the
clock is past the cooldown, and the corners passed the stability gate
(locked position or `isSimilarDetection`); the frame then sets the
cooldown to `now + 1500`.  (2) A frame that emits nothing leaves the
cooldown untouched.  (3) Hence along any run, two emissions with no
emission in between are more than 1500 ms apart: at most one face per
capture cycle. -/
theorem scanner_capture_cooldown :
    (∀ (st : ScanState) (inp : FrameInput),
        ((processFrame st inp).2).isSome = true →
          STABILITY_THRESHOLD_MS ≤ inp.now - (stage2 st inp).stableStart
            ∧ (stage2 st inp).votedColors.isSome = true
            ∧ st.cooldown < inp.now
            ∧ (∃ c u lk fl, stage1 st inp = (some c, u, lk, fl)
                ∧ (u || isSimilarDetection st.lastCorners c) = true)
            ∧ (processFrame st inp).1.cooldown = inp.now + 1500)
    ∧ (∀ (st : ScanState) (inp : FrameInput),
        (processFrame st inp).2 = none →
          (processFrame st inp).1.cooldown = st.cooldown)
    ∧ (∀ (st : ScanState) (inputs : List FrameInput) (i j : ℕ),
        i < j →
        (((runScan st inputs).2.getD i none).isSome = true) →
        (((runScan st inputs).2.getD j none).isSome = true) →
        (∀ k, i < k → k < j → (runScan st inputs).2.getD k none = none) →
        (inputs.getD i default).now + 1500 < (inputs.getD j default).now) := by
  refine ⟨?_, ?_, ?_⟩
  · intro st inp hsome
    rcases processFrame_main st inp with hL | hR
    · rw [hL.1] at hsome
      exact absurd hsome (by simp)
    · exact hR.2
  · intro st inp hnone
    rcases processFrame_main st inp with hL | hR
    · exact hL.2
    · rw [hnone] at hR
      exact absurd hR.1 (by simp)
  · intro st inputs i j hij hi hj hbetween
    exact runScan_spacing inputs st i j hij hi hj hbetween

end RubiqSolver
